import Mathlib

/-!
TM1637 display driver on the PIC12F1840.

A shallow embedding of the two demo programs of the repository that drive a
four digit TM1637 LED module by bit-banging two open-drain lines:

* `PIC12F1840_TM1637.c` (the counter build, namespace `Counter`),
* `PIC12F1840ADC.c` (the ADC build, namespace `ADC`).

Machine integers are natural numbers; a reduction modulo `2^w` is written where
the C code can wrap.  The global variables of the C programs and the special
function registers they touch are the fields of `State`.
-/

namespace TM1637

/-! ## Data model -/

/-- Pin-level events, recorded in program order. -/
inductive PinEv where
  /-- A write to the direction register `TRISA`; `v` is the register's new value. -/
  | tris (v : Nat)
  /-- A write to the `PORTA` output latch; `v` is the latch's new value. -/
  | port (v : Nat)
  /-- A busy wait `__delay_us(n)`. -/
  | delayUs (n : Nat)
  /-- A read of the data pin `RA4`; `level` is `true` when the pin reads 1. -/
  | readDio (level : Bool)
  deriving DecidableEq

/-- Calls made to the three bus primitives, recorded in program order. -/
inductive BusOp where
  /-- A call of `tm1637StartCondition`. -/
  | start
  /-- A call of `tm1637ByteWrite` with argument `b`. -/
  | write (b : Nat)
  /-- A call of `tm1637StopCondition`. -/
  | stop
  deriving DecidableEq

/-- Global variables and registers.  `pins` and `calls` are histories kept for
the statements below (oldest first); `reads` counts the reads of the data pin,
so that the `k`-th read sees the level the environment presents at read `k`.
The field defaults are the initialisers of the counter build and the reset
value of `TRISA` (all pins inputs). -/
structure State where
  /-- Brightness, `uint8_t`, documented range 0 to 7. -/
  tm1637Brightness : Nat := 5
  /-- Digit data, `uint8_t tm1637Data[4]`, element 0 is the leftmost digit. -/
  tm1637Data : List Nat := [0, 0, 0, 0]
  /-- Digit index of the decimal point, counted from the left. -/
  decimalPointPos : Nat := 99
  /-- Leading zeros are blanked when non-zero. -/
  zeroBlanking : Nat := 1
  /-- Limit on the displayed digits (a variable of the ADC build only). -/
  numDisplayedDigits : Nat := 3
  /-- Direction register of port A: a set bit makes the pin an input. -/
  TRISA : Nat := 0x3F
  /-- Output latch of port A. -/
  PORTA : Nat := 0
  /-- Number of reads of the data pin so far. -/
  reads : Nat := 0
  /-- History of pin-level events. -/
  pins : List PinEv := []
  /-- History of calls of the bus primitives. -/
  calls : List BusOp := []
  deriving DecidableEq

/-- Command byte: write data to the display register. -/
def tm1637ByteSetData : Nat := 0x40
/-- Command byte: start address, all display bytes follow. -/
def tm1637ByteSetAddr : Nat := 0xC0
/-- Command byte: display on, brightness is added. -/
def tm1637ByteSetOn : Nat := 0x88
/-- Command byte: display off. -/
def tm1637ByteSetOff : Nat := 0x80
/-- Number of digits of the module. -/
def tm1637MaxDigits : Nat := 4
/-- Index of the rightmost digit. -/
def tm1637RightDigit : Nat := tm1637MaxDigits - 1
/-- Segment data for the numbers 0..9. -/
def tm1637DisplayNumtoSeg : List Nat :=
  [0x3f, 0x06, 0x5b, 0x4f, 0x66, 0x6d, 0x7d, 0x07, 0x7f, 0x6f]
/-- TRIS bit of the data line (RA4). -/
def tm1637dioTrisBit : Nat := 4
/-- TRIS bit of the clock line (RA5). -/
def tm1637clkTrisBit : Nat := 5
/-- Value given to `TRISA` at initialisation: both TM1637 pins are inputs. -/
def trisConfiguration : Nat := 0x30

/-- Table lookup `tm1637DisplayNumtoSeg[d]`.  The table has ten entries; the C
program reads past it when `d > 9`, which this embedding renders as 0. -/
def numToSeg (d : Nat) : Nat := tm1637DisplayNumtoSeg.getD d 0

/-! ## Digit extraction -/

/-- Variables of the `while` loop of `getDigits`, with two ghost fields:
`iters` counts the iterations made and `writes` lists the values of `ctr` that
were used as an index into `tm1637Data`. -/
structure DigitsRun where
  /-- The buffer `tm1637Data`. -/
  data : List Nat
  /-- The signed counter `int8_t ctr`. -/
  ctr : Int
  /-- Iterations of the loop body so far. -/
  iters : Nat
  /-- Indices written so far, oldest first. -/
  writes : List Int
  deriving DecidableEq

/-- The loop `for (ctr2 = 0; ctr2 < tm1637MaxDigits; ctr2++) tm1637Data[ctr2] = 0;`. -/
def zeroFill (data : List Nat) : List Nat :=
  (List.range tm1637MaxDigits).foldl (fun d ctr2 => d.set ctr2 0) data

namespace Counter

/-- The loop `while (number > 0)` of `getDigits` in `PIC12F1840_TM1637.c`. -/
def getDigitsLoop (number : Nat) (r : DigitsRun) : DigitsRun :=
  if number > 0 then
    if r.ctr ≥ 0 then
      getDigitsLoop (number / 10)
        { data := r.data.set r.ctr.toNat ((number % 10) % 256)
          ctr := r.ctr - 1
          iters := r.iters + 1
          writes := r.writes ++ [r.ctr] }
    else
      getDigitsLoop 0 { r with iters := r.iters + 1 }
  else r
termination_by number
decreasing_by all_goals omega

/-- Function `getDigits` of `PIC12F1840_TM1637.c`: the returned byte and the new state. -/
def getDigits (number : Nat) (s : State) : Nat × State :=
  let r := getDigitsLoop number
    { data := zeroFill s.tm1637Data, ctr := (tm1637RightDigit : Int), iters := 0, writes := [] }
  (1, { s with tm1637Data := r.data })

end Counter

namespace ADC

/-- The loop `while (number > 0)` of `getDigits` in `PIC12F1840ADC.c`. -/
def getDigitsLoop (number : Nat) (r : DigitsRun) : DigitsRun :=
  if number > 0 then
    if r.ctr ≥ 0 then
      getDigitsLoop (number / 10)
        { data := r.data.set r.ctr.toNat ((number % 10) % 256)
          ctr := r.ctr - 1
          iters := r.iters + 1
          writes := r.writes ++ [r.ctr] }
    else
      getDigitsLoop 0 { r with iters := r.iters + 1 }
  else r
termination_by number
decreasing_by all_goals omega

/-- Function `getDigits` of `PIC12F1840ADC.c`: the returned byte and the new state. -/
def getDigits (number : Nat) (s : State) : Nat × State :=
  let r := getDigitsLoop number
    { data := zeroFill s.tm1637Data, ctr := (tm1637RightDigit : Int), iters := 0, writes := [] }
  (1, { s with tm1637Data := r.data })

end ADC

/-! ## Rounding (ADC build) -/

namespace ADC

/-- First `if` of the loop body of `roundDigits`, on the pair of `carry` and
`tm1637Data`: at the rightmost digit, set `carry` when the digit is above 5 and
zero the digit. -/
def roundRight (digit : Nat) (acc : Nat × List Nat) : Nat × List Nat :=
  if digit = tm1637RightDigit then
    (if acc.2.getD digit 0 > 5 then 1 else acc.1, acc.2.set digit 0)
  else acc

/-- Second `if` of the loop body of `roundDigits`: left of the rightmost digit,
`tm1637Data[digit] += carry` on `uint8_t`, then wrap to 0 with a carry when the
digit is above 9. -/
def roundCarry (digit : Nat) (acc : Nat × List Nat) : Nat × List Nat :=
  if digit < tm1637RightDigit then
    if (acc.2.getD digit 0 + acc.1) % 256 > 9 then (1, acc.2.set digit 0)
    else (0, acc.2.set digit ((acc.2.getD digit 0 + acc.1) % 256))
  else acc

/-- The loop `for (digit = tm1637RightDigit; digit >= 0; digit--)` of `roundDigits`.
The first argument is `digit + 1`, so that the loop ends when it reaches 0. -/
def roundDigitsLoop : Nat → Nat × List Nat → Nat × List Nat
  | 0, acc => acc
  | digit + 1, acc => roundDigitsLoop digit (roundCarry digit (roundRight digit acc))

/-- Function `roundDigits` of `PIC12F1840ADC.c`. -/
def roundDigits (s : State) : State :=
  { s with tm1637Data := (roundDigitsLoop (tm1637RightDigit + 1) (0, s.tm1637Data)).2 }

end ADC

/-! ## Pin primitives -/

/-- The statement `TRISA &= ~(1<<bit)`: the pin becomes an output.  On the 8 bit
register the mask `~(1<<bit)` is `0xFF ^^^ (1 <<< bit)`. -/
def trisClear (bit : Nat) (s : State) : State :=
  { s with
    TRISA := s.TRISA &&& (0xFF ^^^ (1 <<< bit))
    pins := s.pins ++ [PinEv.tris (s.TRISA &&& (0xFF ^^^ (1 <<< bit)))] }

/-- The statement `TRISA |= 1<<bit`: the pin becomes an input, the line is released. -/
def trisSet (bit : Nat) (s : State) : State :=
  { s with
    TRISA := s.TRISA ||| (1 <<< bit)
    pins := s.pins ++ [PinEv.tris (s.TRISA ||| (1 <<< bit))] }

/-- The statements `tm1637dio = 0` (bit 4) and `tm1637clk = 0` (bit 5): the bit of
the output latch is cleared. -/
def portClear (bit : Nat) (s : State) : State :=
  { s with
    PORTA := s.PORTA &&& (0xFF ^^^ (1 <<< bit))
    pins := s.pins ++ [PinEv.port (s.PORTA &&& (0xFF ^^^ (1 <<< bit)))] }

/-- The statement `__delay_us(n)`. -/
def delayUs (n : Nat) (s : State) : State :=
  { s with pins := s.pins ++ [PinEv.delayUs n] }

/-- Level of the data pin at a read: the level the environment presents while
the pin is an input, the output latch while it is an output.  The environment
`env` gives the level of the data line at each read of the pin, numbered from 0:
`true` is high (pulled up, no acknowledgment), `false` is low. -/
def dioLevel (env : Nat → Bool) (s : State) : Bool :=
  if s.TRISA.testBit tm1637dioTrisBit then env s.reads else s.PORTA.testBit tm1637dioTrisBit

/-- A read of `tm1637dio`. -/
def readDio (env : Nat → Bool) (s : State) : State :=
  { s with reads := s.reads + 1, pins := s.pins ++ [PinEv.readDio (dioLevel env s)] }

/-- Entry into a bus primitive: the call is added to the history of calls. -/
def logCall (op : BusOp) (s : State) : State :=
  { s with calls := s.calls ++ [op] }

/-! ## Bus protocol engine (the same text in both builds) -/

/-- Function `tm1637StartCondition`. -/
def tm1637StartCondition (s : State) : State :=
  logCall BusOp.start s
    |> trisClear tm1637dioTrisBit
    |> portClear tm1637dioTrisBit
    |> delayUs 100

/-- Function `tm1637StopCondition`. -/
def tm1637StopCondition (s : State) : State :=
  logCall BusOp.stop s
    |> trisClear tm1637dioTrisBit
    |> portClear tm1637dioTrisBit
    |> delayUs 100
    |> trisSet tm1637clkTrisBit
    |> delayUs 100
    |> trisSet tm1637dioTrisBit
    |> delayUs 100

/-- Data line part of one iteration of the bit loop: released for a 1, driven low for a 0. -/
def putDataBit (bWrite : Nat) (s : State) : State :=
  if (bWrite &&& 0x01) > 0 then trisSet tm1637dioTrisBit s
  else portClear tm1637dioTrisBit (trisClear tm1637dioTrisBit s)

/-- Body of the loop `for (uint8_t i = 0; i < 8; i++)` of `tm1637ByteWrite`, on the
pair of `bWrite` and the state. -/
def byteWriteBit (acc : Nat × State) (_i : Nat) : Nat × State :=
  (acc.1 >>> 1,
   acc.2
    |> trisClear tm1637clkTrisBit
    |> portClear tm1637clkTrisBit
    |> delayUs 100
    |> putDataBit acc.1
    |> delayUs 100
    |> trisSet tm1637clkTrisBit
    |> delayUs 100)

/-- The data phase of `tm1637ByteWrite`: its loop over the 8 bits. -/
def byteWriteData (bWrite : Nat) (s : State) : State :=
  ((List.range 8).foldl byteWriteBit (bWrite, s)).2

/-- The statements of `tm1637ByteWrite` after the sample of the data line:
`if (!tm1637ack)` re-drives the data line, then the clock is driven low. -/
def byteWriteAckEnd (tm1637ack : Nat) (s : State) : State :=
  (if tm1637ack = 0 then portClear tm1637dioTrisBit (trisClear tm1637dioTrisBit s) else s)
    |> delayUs 100
    |> trisClear tm1637clkTrisBit
    |> portClear tm1637clkTrisBit
    |> delayUs 100

/-- The acknowledgment cycle of `tm1637ByteWrite` (the statements after its loop),
with the returned byte. -/
def byteWriteAck (env : Nat → Bool) (s : State) : Nat × State :=
  let s1 := s
    |> trisClear tm1637clkTrisBit
    |> portClear tm1637clkTrisBit
    |> trisSet tm1637dioTrisBit
    |> portClear tm1637dioTrisBit
    |> delayUs 100
    |> trisSet tm1637clkTrisBit
    |> delayUs 100
  (1, byteWriteAckEnd (if dioLevel env s1 then 1 else 0) (readDio env s1))

/-- Function `tm1637ByteWrite`: the returned byte and the new state. -/
def tm1637ByteWrite (env : Nat → Bool) (bWrite : Nat) (s : State) : Nat × State :=
  byteWriteAck env (byteWriteData bWrite (logCall (BusOp.write bWrite) s))

/-- Function `tm1637DisplayOn`. -/
def tm1637DisplayOn (env : Nat → Bool) (s : State) : State :=
  let s1 := tm1637StartCondition s
  let s2 := (tm1637ByteWrite env ((tm1637ByteSetOn + s1.tm1637Brightness) % 256) s1).2
  tm1637StopCondition s2

/-- Function `tm1637DisplayOff`. -/
def tm1637DisplayOff (env : Nat → Bool) (s : State) : State :=
  let s1 := tm1637StartCondition s
  let s2 := (tm1637ByteWrite env tm1637ByteSetOff s1).2
  tm1637StopCondition s2

/-! ## Display update -/

/-- Initial value of the local `stopBlanking = !zeroBlanking`. -/
def stopBlankingInit (s : State) : Nat := if s.zeroBlanking = 0 then 1 else 0

namespace Counter

/-- Segment byte of digit `ctr` in the loop of `tm1637UpdateDisplay`
(`PIC12F1840_TM1637.c`), with the new value of `stopBlanking`. -/
def digitSegs (s : State) (stopBlanking ctr : Nat) : Nat × Nat :=
  if stopBlanking = 0 ∧ s.tm1637Data.getD ctr 0 = 0 then
    (if ctr < tm1637RightDigit then 0 else numToSeg (s.tm1637Data.getD ctr 0), stopBlanking)
  else
    (if ctr = s.decimalPointPos then numToSeg (s.tm1637Data.getD ctr 0) ||| 0x80
     else numToSeg (s.tm1637Data.getD ctr 0), 1)

/-- Body of the loop `for (ctr = 0; ctr < tm1637MaxDigits; ctr++)`, on the pair of
`stopBlanking` and the state. -/
def updateStep (env : Nat → Bool) (acc : Nat × State) (ctr : Nat) : Nat × State :=
  ((digitSegs acc.2 acc.1 ctr).2, (tm1637ByteWrite env (digitSegs acc.2 acc.1 ctr).1 acc.2).2)

/-- Function `tm1637UpdateDisplay` of `PIC12F1840_TM1637.c`. -/
def tm1637UpdateDisplay (env : Nat → Bool) (s : State) : State :=
  let s1 := tm1637StopCondition (tm1637ByteWrite env tm1637ByteSetData (tm1637StartCondition s)).2
  let s2 := (tm1637ByteWrite env tm1637ByteSetAddr (tm1637StartCondition s1)).2
  let s3 := ((List.range tm1637MaxDigits).foldl (updateStep env) (stopBlankingInit s, s2)).2
  let s4 := tm1637StartCondition (tm1637StopCondition s3)
  tm1637StopCondition (tm1637ByteWrite env ((tm1637ByteSetOn + s4.tm1637Brightness) % 256) s4).2

/-- Function `initialise` of `PIC12F1840_TM1637.c`, as far as it touches port A. -/
def initialise (s : State) : State :=
  { s with PORTA := 0, TRISA := trisConfiguration }

/-- State of the counter build when `main` has called `initialise`. -/
def init : State := initialise {}

end Counter

namespace ADC

/-- Segment byte of digit `ctr` in the loop of `tm1637UpdateDisplay`
(`PIC12F1840ADC.c`), with the new value of `stopBlanking`.  The comparison
`ctr > numDisplayedDigits - 1` is made on `int`. -/
def digitSegs (s : State) (stopBlanking ctr : Nat) : Nat × Nat :=
  let r : Nat × Nat :=
    if stopBlanking = 0 ∧ s.tm1637Data.getD ctr 0 = 0 then
      (if ctr < tm1637RightDigit then 0 else numToSeg (s.tm1637Data.getD ctr 0), stopBlanking)
    else
      (if ctr = s.decimalPointPos then numToSeg (s.tm1637Data.getD ctr 0) ||| 0x80
       else numToSeg (s.tm1637Data.getD ctr 0), 1)
  (if (ctr : Int) > (s.numDisplayedDigits : Int) - 1 then 0 else r.1, r.2)

/-- Body of the loop `for (ctr = 0; ctr < tm1637MaxDigits; ctr++)`, on the pair of
`stopBlanking` and the state. -/
def updateStep (env : Nat → Bool) (acc : Nat × State) (ctr : Nat) : Nat × State :=
  ((digitSegs acc.2 acc.1 ctr).2, (tm1637ByteWrite env (digitSegs acc.2 acc.1 ctr).1 acc.2).2)

/-- Function `tm1637UpdateDisplay` of `PIC12F1840ADC.c`. -/
def tm1637UpdateDisplay (env : Nat → Bool) (s : State) : State :=
  let s1 := tm1637StopCondition (tm1637ByteWrite env tm1637ByteSetData (tm1637StartCondition s)).2
  let s2 := (tm1637ByteWrite env tm1637ByteSetAddr (tm1637StartCondition s1)).2
  let s3 := ((List.range tm1637MaxDigits).foldl (updateStep env) (stopBlankingInit s, s2)).2
  let s4 := tm1637StartCondition (tm1637StopCondition s3)
  tm1637StopCondition (tm1637ByteWrite env ((tm1637ByteSetOn + s4.tm1637Brightness) % 256) s4).2

/-- Bits set by `ADCinputConfig`: analogue inputs AN0 and AN1. -/
def ADCinputConfig : Nat := 0x03

/-- Function `initialise12F1840` of `PIC12F1840ADC.c`, as far as it touches port A. -/
def initialise12F1840 (s : State) : State :=
  { s with PORTA := 0, TRISA := trisConfiguration ||| ADCinputConfig }

/-- State of the ADC build when `main` has called `initialise12F1840`: the
initialisers of this build give `zeroBlanking = 0`. -/
def init : State := initialise12F1840 { zeroBlanking := 0 }

end ADC

/-! ## Display variables and the rendering of the buffer -/

/-- The display variables of a state: buffer, brightness, decimal point
position, zero blanking flag and digit limit. -/
def display (s : State) : List Nat × Nat × Nat × Nat × Nat :=
  (s.tm1637Data, s.tm1637Brightness, s.decimalPointPos, s.zeroBlanking, s.numDisplayedDigits)

/-- Segment bytes the counter build's loop computes for the positions `ctrs`,
starting with the given value of `stopBlanking`. -/
def Counter.renderFrom (s : State) : Nat → List Nat → List Nat
  | _, [] => []
  | stopBlanking, ctr :: rest =>
    (Counter.digitSegs s stopBlanking ctr).1
      :: Counter.renderFrom s (Counter.digitSegs s stopBlanking ctr).2 rest

/-- Segment bytes the counter build computes for the buffer, left to right. -/
def Counter.renderSegs (s : State) : List Nat :=
  Counter.renderFrom s (stopBlankingInit s) (List.range tm1637MaxDigits)

/-- Segment bytes the ADC build's loop computes for the positions `ctrs`,
starting with the given value of `stopBlanking`. -/
def ADC.renderFrom (s : State) : Nat → List Nat → List Nat
  | _, [] => []
  | stopBlanking, ctr :: rest =>
    (ADC.digitSegs s stopBlanking ctr).1
      :: ADC.renderFrom s (ADC.digitSegs s stopBlanking ctr).2 rest

/-- Segment bytes the ADC build computes for the buffer, left to right. -/
def ADC.renderSegs (s : State) : List Nat :=
  ADC.renderFrom s (stopBlankingInit s) (List.range tm1637MaxDigits)

/-- The bus operations of one display update with segment bytes `segs`. -/
def updateOps (segs : List Nat) (brightness : Nat) : List BusOp :=
  [BusOp.start, BusOp.write 0x40, BusOp.stop, BusOp.start, BusOp.write 0xC0]
    ++ segs.map BusOp.write
    ++ [BusOp.stop, BusOp.start, BusOp.write ((0x88 + brightness) % 256), BusOp.stop]

/-! ## Observations on the histories -/

/-- Bytes passed to `tm1637ByteWrite`, in call order. -/
def bytesWritten : List BusOp → List Nat
  | [] => []
  | BusOp.write b :: rest => b :: bytesWritten rest
  | _ :: rest => bytesWritten rest

/-- The four segment bytes among the bytes written during one display update:
they follow the two command bytes `0x40` and `0xC0`. -/
def segmentsOf (before after : State) : List Nat :=
  ((bytesWritten (after.calls.drop before.calls.length)).drop 2).take 4

/-- Segment bytes sent by one call of the counter build's `tm1637UpdateDisplay`. -/
def Counter.segmentBytes (env : Nat → Bool) (s : State) : List Nat :=
  segmentsOf s (Counter.tm1637UpdateDisplay env s)

/-- Segment bytes sent by one call of the ADC build's `tm1637UpdateDisplay`. -/
def ADC.segmentBytes (env : Nat → Bool) (s : State) : List Nat :=
  segmentsOf s (ADC.tm1637UpdateDisplay env s)

/-- Levels of the data line at the rising edges of the clock in a pin history.
`tris` is the value of `TRISA` before the history; an edge is a write to `TRISA`
that sets the clock bit while it was clear, and the level recorded is the data
bit of `TRISA` at that write (`true`: released, `false`: driven low). -/
def clockEdges : Nat → List PinEv → List Bool
  | _, [] => []
  | tris, PinEv.tris v :: rest =>
    if tris.testBit tm1637clkTrisBit = false ∧ v.testBit tm1637clkTrisBit = true then
      v.testBit tm1637dioTrisBit :: clockEdges v rest
    else clockEdges v rest
  | tris, _ :: rest => clockEdges tris rest

/-- Value of `TRISA` after a pin history that started with the value `tris`. -/
def trisAfter : Nat → List PinEv → Nat
  | tris, [] => tris
  | _, PinEv.tris v :: rest => trisAfter v rest
  | tris, _ :: rest => trisAfter tris rest

/-- The number whose bits are the given levels, least significant first. -/
def decodeLsbFirst : List Bool → Nat
  | [] => 0
  | b :: rest => (if b then 1 else 0) + 2 * decodeLsbFirst rest

/-- The four decimal digits of `n % 10000`, most significant first. -/
def digits4 (n : Nat) : List Nat := [n / 1000 % 10, n / 100 % 10, n / 10 % 10, n % 10]

/-! ## Sequences of bus primitives and of display calls -/

/-- The buffer holds four decimal digits: four entries, each in 0..9. -/
def validDigits (data : List Nat) : Prop := data.length = 4 ∧ ∀ x ∈ data, x ≤ 9

instance validDigitsDecidable (data : List Nat) : Decidable (validDigits data) := by
  unfold validDigits
  infer_instance

/-- Both lines are released: the `TRISA` bits of the data and the clock pin are set. -/
def linesReleased (s : State) : Prop :=
  s.TRISA.testBit tm1637dioTrisBit = true ∧ s.TRISA.testBit tm1637clkTrisBit = true

instance linesReleasedDecidable (s : State) : Decidable (linesReleased s) := by
  unfold linesReleased
  infer_instance

/-- One call of a bus primitive. -/
def runOp (env : Nat → Bool) : BusOp → State → State
  | BusOp.start, s => tm1637StartCondition s
  | BusOp.write b, s => (tm1637ByteWrite env b s).2
  | BusOp.stop, s => tm1637StopCondition s

/-- Calls of bus primitives, one after the other. -/
def runOps (env : Nat → Bool) : List BusOp → State → State
  | [], s => s
  | op :: rest, s => runOps env rest (runOp env op s)

/-- For each call of `tm1637StartCondition` made while the bus primitives `ops` are
called one after the other from the state `s`: the value of `TRISA` when the call
is entered and the value when it returns. -/
def startCalls (env : Nat → Bool) : List BusOp → State → List (Nat × Nat)
  | [], _ => []
  | BusOp.start :: rest, s =>
    (s.TRISA, (tm1637StartCondition s).TRISA) :: startCalls env rest (tm1637StartCondition s)
  | op :: rest, s => startCalls env rest (runOp env op s)

/-- The three display functions a program can call. -/
inductive DisplayCall where
  /-- A call of `tm1637UpdateDisplay`. -/
  | update
  /-- A call of `tm1637DisplayOn`. -/
  | switchOn
  /-- A call of `tm1637DisplayOff`. -/
  | switchOff
  deriving DecidableEq

/-- The bus primitives a display function of the counter build calls, in order. -/
def Counter.callOps (s : State) : DisplayCall → List BusOp
  | DisplayCall.update => updateOps (Counter.renderSegs s) s.tm1637Brightness
  | DisplayCall.switchOn =>
    [BusOp.start, BusOp.write ((tm1637ByteSetOn + s.tm1637Brightness) % 256), BusOp.stop]
  | DisplayCall.switchOff => [BusOp.start, BusOp.write tm1637ByteSetOff, BusOp.stop]

/-- One call of a display function of the counter build. -/
def Counter.runCall (env : Nat → Bool) : DisplayCall → State → State
  | DisplayCall.update, s => Counter.tm1637UpdateDisplay env s
  | DisplayCall.switchOn, s => tm1637DisplayOn env s
  | DisplayCall.switchOff, s => tm1637DisplayOff env s

/-- Calls of display functions of the counter build, one after the other. -/
def Counter.runCalls (env : Nat → Bool) : List DisplayCall → State → State
  | [], s => s
  | c :: rest, s => Counter.runCalls env rest (Counter.runCall env c s)

/-- Entry and return values of `TRISA` for every call of `tm1637StartCondition`
made while the display functions `cs` of the counter build are called one after
the other from the state `s`. -/
def Counter.startCallsOf (env : Nat → Bool) : List DisplayCall → State → List (Nat × Nat)
  | [], _ => []
  | c :: rest, s =>
    startCalls env (Counter.callOps s c) s
      ++ Counter.startCallsOf env rest (Counter.runCall env c s)

/-- Levels of the data line at the rising clock edges that a sequence of bus
primitives produces; `clk` tells whether the clock line is released before the
sequence.  A start condition makes no clock edge; a byte write makes the eight
edges of its bits, least significant first, and the acknowledgment edge with the
data line released, and leaves the clock low; a stop condition releases the clock
with the data line driven low, an edge when the clock was low. -/
def opsEdges : Bool → List BusOp → List Bool
  | _, [] => []
  | clk, BusOp.start :: rest => opsEdges clk rest
  | _, BusOp.write b :: rest =>
    (List.range 8).map (fun i => b.testBit i) ++ [true] ++ opsEdges false rest
  | clk, BusOp.stop :: rest => (if clk then [] else [false]) ++ opsEdges true rest

/-! ## The main programs -/

namespace ADC

/-- Value of `ADCreadStatus`: no conversion in progress. -/
def NOCONVERSION : Nat := 0
/-- Value of `ADCreadStatus`: a read is to be started. -/
def STARTADCREAD : Nat := 1
/-- Value of `ADCreadStatus`: a conversion is in progress. -/
def CONVERTING : Nat := 2

/-- Function `readADC` of `PIC12F1840ADC.c`.  The result registers `ADRESL` and
`ADRESH` it reads are arguments.  `ADCrefSelect --` is on `uint8_t`, the other
operations on `uint16_t`. -/
def readADC (ADCrefSelect ADRESL ADRESH : Nat) : Nat :=
  ((ADRESL ||| ((ADRESH <<< 8) % 65536)) <<< ((ADCrefSelect + 255) % 256)) % 65536

/-- The `case CONVERTING` of the `switch` in `main` of `PIC12F1840ADC.c`: the new
value of `ADCreadStatus` and the new state.  The registers `ADCON0`, `ADRESL` and
`ADRESH` it reads are arguments. -/
def convertingCase (env : Nat → Bool) (ADCrefSelect ADCON0 ADRESL ADRESH : Nat) (s : State) :
    Nat × State :=
  if ADCON0 &&& 0x02 = 0 then
    (NOCONVERSION,
      tm1637UpdateDisplay env
        (roundDigits (getDigits (readADC ADCrefSelect ADRESL ADRESH) s).2))
  else (CONVERTING, s)

end ADC

namespace Counter

/-- The statements `displayedInt ++; if (displayedInt>9999) displayedInt = 0;` of
`main` in `PIC12F1840_TM1637.c`, on `uint16_t`. -/
def nextCount (displayedInt : Nat) : Nat :=
  if (displayedInt + 1) % 65536 > 9999 then 0 else (displayedInt + 1) % 65536

/-- One iteration of the loop `while(1)` of `main`, on the pair of `displayedInt`
and the state.  `__delay_ms(1000)` is recorded as a delay of 1000000 us. -/
def mainStep (env : Nat → Bool) (acc : Nat × State) : Nat × State :=
  if (getDigits (nextCount acc.1) acc.2).1 ≠ 0 then
    (nextCount acc.1,
      tm1637UpdateDisplay env (delayUs 1000000 (getDigits (nextCount acc.1) acc.2).2))
  else (nextCount acc.1, (getDigits (nextCount acc.1) acc.2).2)

/-- The statements of `main` before its loop: `initialise`, `__delay_ms(100)`,
`getDigits(displayedInt)` with `displayedInt = 0`, `tm1637UpdateDisplay`. -/
def mainStart (env : Nat → Bool) (s : State) : Nat × State :=
  (0, tm1637UpdateDisplay env (getDigits 0 (delayUs 100000 (initialise s))).2)

/-- The function `main` up to the end of the `n`-th iteration of its loop. -/
def mainRun (env : Nat → Bool) : Nat → State → Nat × State
  | 0, s => mainStart env s
  | n + 1, s => mainStep env (mainRun env n s)

end Counter

/-- No change of the data line while the clock is released, in a pin history that
starts with `TRISA = tris`: every write to `TRISA` that changes the data bit is
made with the clock bit clear before and after the write. -/
def dataHeldWhileClockHigh : Nat → List PinEv → Bool
  | _, [] => true
  | tris, PinEv.tris v :: rest =>
    (tris.testBit tm1637dioTrisBit == v.testBit tm1637dioTrisBit
      || (!tris.testBit tm1637clkTrisBit && !v.testBit tm1637clkTrisBit))
    && dataHeldWhileClockHigh v rest
  | tris, _ :: rest => dataHeldWhileClockHigh tris rest

/-! ## The sampling loop of the ADC build -/

/-- The statement `RA2 = 1`: the bit of the output latch is set. -/
def portSet (bit : Nat) (s : State) : State :=
  { s with
    PORTA := s.PORTA ||| (1 <<< bit)
    pins := s.pins ++ [PinEv.port (s.PORTA ||| (1 <<< bit))] }

namespace ADC

/-- The constant `ADCrefSelect` of `main`. -/
def mainADCrefSelect : Nat := 0x03
/-- The variable `ADCchannel` of `main`, which `main` never changes. -/
def mainADCchannel : Nat := 0

/-- State of the ADC build at reset: the initialisers of `PIC12F1840ADC.c`
(`zeroBlanking = 0`, `numDisplayedDigits = 3`, `decimalPointPos = 99`, `tm1637Brightness = 5`,
`tm1637Data = {0, 0, 0, 0}`). -/
def powerOn : State := { zeroBlanking := 0 }

/-- The variables of the sampling loop next to the display state: the globals
`timer1Flag`, `ADCreadcounter`, `ADCreadStatus`, `LEDcounter`, `LEDonTime` and the
register `ADCON0`. -/
structure MainVars where
  /-- Flag set by the Timer1 interrupt routine every 50 ms. -/
  timer1Flag : Nat
  /-- Count of 50 ms intervals for the ADC task, `uint8_t`. -/
  ADCreadcounter : Nat
  /-- Stage of the ADC task. -/
  ADCreadStatus : Nat
  /-- Count of 50 ms intervals for the LED flash, `uint8_t`. -/
  LEDcounter : Nat
  /-- Length of the LED flash; the flash routine is called while non-zero. -/
  LEDonTime : Nat
  /-- Control register 0 of the ADC; bit 1 is GO/DONE. -/
  ADCON0 : Nat
  /-- The display variables and port A. -/
  st : State

/-- What the hardware has done when an iteration of the loop begins: whether the
Timer1 interrupt routine has run (`timer1Flag = 1`), whether the ADC has finished
a conversion (GO/DONE cleared), and the content of the result registers. -/
structure Hardware where
  /-- The interrupt routine has set `timer1Flag`. -/
  tick : Bool
  /-- The ADC has cleared the GO/DONE bit of `ADCON0`. -/
  done : Bool
  /-- Result register, low byte. -/
  ADRESL : Nat
  /-- Result register, high byte. -/
  ADRESH : Nat

/-- Function `setADCchannel`, on the register `ADCON0`. -/
def setADCchannel (ADCchannel ADCON0 : Nat) : Nat :=
  ((ADCON0 &&& 0x83) ||| (ADCchannel <<< 2)) % 256

/-- Function `LEDflash`: the new value of `LEDonTime` and the new state. -/
def LEDflash (LEDcounter LEDonTime : Nat) (s : State) : Nat × State :=
  if LEDcounter ≤ LEDonTime then (LEDonTime, portSet 2 s) else (0, portClear 2 s)

/-- Effect of the hardware before an iteration of the loop. -/
def hardwareBlock (hw : Hardware) (v : MainVars) : MainVars :=
  { v with
    timer1Flag := if hw.tick then 1 else v.timer1Flag
    ADCON0 := if hw.done then v.ADCON0 &&& 0xFD else v.ADCON0 }

/-- The statement `if (timer1Flag) { ADCreadcounter ++; LEDcounter ++; timer1Flag = 0; }`. -/
def tickBlock (v : MainVars) : MainVars :=
  if v.timer1Flag ≠ 0 then
    { v with
      ADCreadcounter := (v.ADCreadcounter + 1) % 256
      LEDcounter := (v.LEDcounter + 1) % 256
      timer1Flag := 0 }
  else v

/-- The statement `if (ADCreadcounter >= 20) { ... }` that starts a read every second. -/
def startBlock (v : MainVars) : MainVars :=
  if v.ADCreadcounter ≥ 20 then
    { v with ADCreadcounter := 0, ADCreadStatus := STARTADCREAD, LEDcounter := 0, LEDonTime := 1 }
  else v

/-- The statement `switch (ADCreadStatus)` of `main`. -/
def switchBlock (env : Nat → Bool) (hw : Hardware) (v : MainVars) : MainVars :=
  if v.ADCreadStatus = NOCONVERSION then v
  else if v.ADCreadStatus = STARTADCREAD then
    { v with
      ADCON0 := (setADCchannel mainADCchannel v.ADCON0) ||| 0x02
      ADCreadStatus := CONVERTING }
  else if v.ADCreadStatus = CONVERTING then
    { v with
      ADCreadStatus :=
        (convertingCase env mainADCrefSelect v.ADCON0 hw.ADRESL hw.ADRESH v.st).1
      st := (convertingCase env mainADCrefSelect v.ADCON0 hw.ADRESL hw.ADRESH v.st).2 }
  else v

/-- The statement `if (LEDonTime) LEDflash();`. -/
def ledBlock (v : MainVars) : MainVars :=
  if v.LEDonTime ≠ 0 then
    { v with
      LEDonTime := (LEDflash v.LEDcounter v.LEDonTime v.st).1
      st := (LEDflash v.LEDcounter v.LEDonTime v.st).2 }
  else v

/-- An iteration of the loop of `main` up to its `switch` statement. -/
def loopHead (hw : Hardware) (v : MainVars) : MainVars :=
  startBlock (tickBlock (hardwareBlock hw v))

/-- One iteration of the loop `while(1)` of `main` in `PIC12F1840ADC.c`. -/
def mainStep (env : Nat → Bool) (v : MainVars) (hw : Hardware) : MainVars :=
  ledBlock (switchBlock env hw (loopHead hw v))

/-- The statements of `main` before its loop, as far as they touch the variables
of the embedding: `initialise12F1840`, `initialise12F1840ADC` (`ADCON0 = 0x01` and
`ADCON0 |= ADCchannel<<2`), `zeroBlanking = 0`, `decimalPointPos = 0`,
`getDigits(displayedInt)` with `displayedInt = 0`, `tm1637UpdateDisplay`,
`ADCreadcounter = 0`, `timer1Flag = 0`; `ADCreadStatus`, `LEDcounter` and `LEDonTime`
keep their initialisers 0.  The opening `_delay(100)` and the Timer1 registers are
not part of the state. -/
def mainStart (env : Nat → Bool) (s : State) : MainVars :=
  { timer1Flag := 0
    ADCreadcounter := 0
    ADCreadStatus := NOCONVERSION
    LEDcounter := 0
    LEDonTime := 0
    ADCON0 := (0x01 ||| (mainADCchannel <<< 2)) % 256
    st := tm1637UpdateDisplay env
      (getDigits 0 { initialise12F1840 s with zeroBlanking := 0, decimalPointPos := 0 }).2 }

/-- The function `main` from reset up to the end of the loop iterations whose
hardware activity is listed in `hws`. -/
def mainRun (env : Nat → Bool) (hws : List Hardware) : MainVars :=
  hws.foldl (mainStep env) (mainStart env powerOn)

end ADC

/-! ## Theorems -/

theorem zeroFill_eq (data : List Nat) (h : data.length = 4) : zeroFill data = [0, 0, 0, 0] := by
  match data, h with
  | [a, b, c, d], _ => rfl

theorem counter_getDigitsLoop_zero (r : DigitsRun) : Counter.getDigitsLoop 0 r = r := by
  rw [Counter.getDigitsLoop]; simp

theorem counter_getDigitsLoop_pos (n : Nat) (data : List Nat) (ctr : Int) (iters : Nat)
    (writes : List Int) (hn : 0 < n) (hc : 0 ≤ ctr) :
    Counter.getDigitsLoop n { data := data, ctr := ctr, iters := iters, writes := writes }
      = Counter.getDigitsLoop (n / 10)
          { data := data.set ctr.toNat ((n % 10) % 256), ctr := ctr - 1,
            iters := iters + 1, writes := writes ++ [ctr] } := by
  rw [Counter.getDigitsLoop]; simp [hn, hc]

theorem counter_getDigitsLoop_neg (n : Nat) (data : List Nat) (ctr : Int) (iters : Nat)
    (writes : List Int) (hn : 0 < n) (hc : ctr < 0) :
    Counter.getDigitsLoop n { data := data, ctr := ctr, iters := iters, writes := writes }
      = { data := data, ctr := ctr, iters := iters + 1, writes := writes } := by
  rw [Counter.getDigitsLoop]; simp [hn, hc, counter_getDigitsLoop_zero]

theorem counter_getDigitsLoop_run (v : Nat) :
    (Counter.getDigitsLoop v { data := [0, 0, 0, 0], ctr := 3, iters := 0, writes := [] }).data
      = [v / 1000 % 10, v / 100 % 10, v / 10 % 10, v % 10] := by
  rcases Nat.eq_zero_or_pos v with h0 | h0
  · subst h0; rw [counter_getDigitsLoop_zero]
  rw [counter_getDigitsLoop_pos _ _ _ _ _ h0 (by decide)]
  rcases Nat.eq_zero_or_pos (v / 10) with h1 | h1
  · rw [h1, counter_getDigitsLoop_zero]
    simp
    omega
  rw [counter_getDigitsLoop_pos _ _ _ _ _ h1 (by decide)]
  rcases Nat.eq_zero_or_pos (v / 10 / 10) with h2 | h2
  · rw [h2, counter_getDigitsLoop_zero]
    simp
    omega
  rw [counter_getDigitsLoop_pos _ _ _ _ _ h2 (by decide)]
  rcases Nat.eq_zero_or_pos (v / 10 / 10 / 10) with h3 | h3
  · rw [h3, counter_getDigitsLoop_zero]
    simp
    omega
  rw [counter_getDigitsLoop_pos _ _ _ _ _ h3 (by decide)]
  rcases Nat.eq_zero_or_pos (v / 10 / 10 / 10 / 10) with h4 | h4
  · rw [h4, counter_getDigitsLoop_zero]
    simp
    omega
  rw [counter_getDigitsLoop_neg _ _ _ _ _ h4 (by decide)]
  simp
  omega

theorem adc_getDigitsLoop_zero (r : DigitsRun) : ADC.getDigitsLoop 0 r = r := by
  rw [ADC.getDigitsLoop]; simp

theorem adc_getDigitsLoop_pos (n : Nat) (data : List Nat) (ctr : Int) (iters : Nat)
    (writes : List Int) (hn : 0 < n) (hc : 0 ≤ ctr) :
    ADC.getDigitsLoop n { data := data, ctr := ctr, iters := iters, writes := writes }
      = ADC.getDigitsLoop (n / 10)
          { data := data.set ctr.toNat ((n % 10) % 256), ctr := ctr - 1,
            iters := iters + 1, writes := writes ++ [ctr] } := by
  rw [ADC.getDigitsLoop]; simp [hn, hc]

theorem adc_getDigitsLoop_neg (n : Nat) (data : List Nat) (ctr : Int) (iters : Nat)
    (writes : List Int) (hn : 0 < n) (hc : ctr < 0) :
    ADC.getDigitsLoop n { data := data, ctr := ctr, iters := iters, writes := writes }
      = { data := data, ctr := ctr, iters := iters + 1, writes := writes } := by
  rw [ADC.getDigitsLoop]; simp [hn, hc, adc_getDigitsLoop_zero]

theorem adc_getDigitsLoop_run (v : Nat) :
    (ADC.getDigitsLoop v { data := [0, 0, 0, 0], ctr := 3, iters := 0, writes := [] }).data
      = [v / 1000 % 10, v / 100 % 10, v / 10 % 10, v % 10] := by
  rcases Nat.eq_zero_or_pos v with h0 | h0
  · subst h0; rw [adc_getDigitsLoop_zero]
  rw [adc_getDigitsLoop_pos _ _ _ _ _ h0 (by decide)]
  rcases Nat.eq_zero_or_pos (v / 10) with h1 | h1
  · rw [h1, adc_getDigitsLoop_zero]
    simp
    omega
  rw [adc_getDigitsLoop_pos _ _ _ _ _ h1 (by decide)]
  rcases Nat.eq_zero_or_pos (v / 10 / 10) with h2 | h2
  · rw [h2, adc_getDigitsLoop_zero]
    simp
    omega
  rw [adc_getDigitsLoop_pos _ _ _ _ _ h2 (by decide)]
  rcases Nat.eq_zero_or_pos (v / 10 / 10 / 10) with h3 | h3
  · rw [h3, adc_getDigitsLoop_zero]
    simp
    omega
  rw [adc_getDigitsLoop_pos _ _ _ _ _ h3 (by decide)]
  rcases Nat.eq_zero_or_pos (v / 10 / 10 / 10 / 10) with h4 | h4
  · rw [h4, adc_getDigitsLoop_zero]
    simp
    omega
  rw [adc_getDigitsLoop_neg _ _ _ _ _ h4 (by decide)]
  simp
  omega


theorem counter_getDigits_state (v : Nat) (s : State) (hlen : s.tm1637Data.length = 4) :
    Counter.getDigits v s = (1, { s with tm1637Data := digits4 v }) := by
  simp only [Counter.getDigits, zeroFill_eq _ hlen, digits4, tm1637RightDigit, tm1637MaxDigits]
  rw [show ((4 - 1 : Nat) : Int) = 3 from rfl, counter_getDigitsLoop_run v]

theorem counter_getDigits_data (v : Nat) (s : State) (hlen : s.tm1637Data.length = 4) :
    (Counter.getDigits v s).2.tm1637Data = digits4 v := by
  rw [counter_getDigits_state v s hlen]

theorem adc_getDigits_state (v : Nat) (s : State) (hlen : s.tm1637Data.length = 4) :
    ADC.getDigits v s = (1, { s with tm1637Data := digits4 v }) := by
  simp only [ADC.getDigits, zeroFill_eq _ hlen, digits4, tm1637RightDigit, tm1637MaxDigits]
  rw [show ((4 - 1 : Nat) : Int) = 3 from rfl, adc_getDigitsLoop_run v]

theorem adc_getDigits_data (v : Nat) (s : State) (hlen : s.tm1637Data.length = 4) :
    (ADC.getDigits v s).2.tm1637Data = digits4 v := by
  rw [adc_getDigits_state v s hlen]

/-! ### Digit extraction -/

/-- C1: for every value `v` in 0..9999 and every prior content of the four entry
buffer, `getDigits v` (both builds) leaves `tm1637Data` equal to
`[v/1000, (v/100)%10, (v/10)%10, v%10]`, and every position that the extraction
does not reach (position `i` with `v < 10^(3-i)`) holds 0. -/
theorem C1_getDigits_decimal_digits (v : Nat) (hv : v ≤ 9999) (s : State)
    (hlen : s.tm1637Data.length = 4) :
    (Counter.getDigits v s).2.tm1637Data = [v / 1000, v / 100 % 10, v / 10 % 10, v % 10]
    ∧ (ADC.getDigits v s).2.tm1637Data = [v / 1000, v / 100 % 10, v / 10 % 10, v % 10]
    ∧ (∀ i, i < 4 → v < 10 ^ (3 - i) →
        (Counter.getDigits v s).2.tm1637Data.getD i 1 = 0
        ∧ (ADC.getDigits v s).2.tm1637Data.getD i 1 = 0) := by
  have h : digits4 v = [v / 1000, v / 100 % 10, v / 10 % 10, v % 10] := by
    simp only [digits4]
    congr 1
    omega
  rw [counter_getDigits_data v s hlen, adc_getDigits_data v s hlen, h]
  refine ⟨rfl, rfl, ?_⟩
  intro i hi hlt
  interval_cases i <;> simp at hlt ⊢ <;> omega

/-- Witness of C1: the values 1234 and 7 of the specification, from the initial
state of the counter build. -/
theorem C1_getDigits_decimal_digits_witness :
    (Counter.getDigits 1234 Counter.init).2.tm1637Data = [1, 2, 3, 4]
    ∧ (ADC.getDigits 7 Counter.init).2.tm1637Data = [0, 0, 0, 7] :=
  ⟨(C1_getDigits_decimal_digits 1234 (by decide) Counter.init (by decide)).1,
   (C1_getDigits_decimal_digits 7 (by decide) Counter.init (by decide)).2.1⟩

/-- C2: for every value `v` in 10000..65535, `getDigits v` (both builds) leaves the
four decimal digits of `v % 10000` in the buffer and still returns 1. -/
theorem C2_getDigits_truncates (v : Nat) (_hlo : 10000 ≤ v) (_hhi : v ≤ 65535) (s : State)
    (hlen : s.tm1637Data.length = 4) :
    (Counter.getDigits v s).2.tm1637Data
        = [v % 10000 / 1000, v % 10000 / 100 % 10, v % 10000 / 10 % 10, v % 10000 % 10]
    ∧ (Counter.getDigits v s).1 = 1
    ∧ (ADC.getDigits v s).2.tm1637Data
        = [v % 10000 / 1000, v % 10000 / 100 % 10, v % 10000 / 10 % 10, v % 10000 % 10]
    ∧ (ADC.getDigits v s).1 = 1 := by
  have h : digits4 v
      = [v % 10000 / 1000, v % 10000 / 100 % 10, v % 10000 / 10 % 10, v % 10000 % 10] := by
    simp only [digits4]
    congr 1
    · omega
    congr 1
    · omega
    congr 1
    · omega
    congr 1
    omega
  rw [counter_getDigits_data v s hlen, adc_getDigits_data v s hlen, h]
  exact ⟨rfl, rfl, rfl, rfl⟩

/-- Witness of C2: the value 65535 of the specification gives `[5, 5, 3, 5]`. -/
theorem C2_getDigits_truncates_witness :
    (Counter.getDigits 65535 Counter.init).2.tm1637Data = [5, 5, 3, 5]
    ∧ (Counter.getDigits 65535 Counter.init).1 = 1 :=
  ⟨(C2_getDigits_truncates 65535 (by decide) (by decide) Counter.init (by decide)).1,
   (C2_getDigits_truncates 65535 (by decide) (by decide) Counter.init (by decide)).2.1⟩

/-! ### Rounding -/

theorem roundDigits_data (a b c d : Nat) (s : State) (h : s.tm1637Data = [a, b, c, d]) :
    (ADC.roundDigits s).tm1637Data
      = (ADC.roundCarry 0 (ADC.roundCarry 1 (ADC.roundCarry 2
          (if d > 5 then 1 else 0, [a, b, c, 0])))).2 := by
  simp [ADC.roundDigits, ADC.roundDigitsLoop, ADC.roundRight, ADC.roundCarry, h,
    tm1637RightDigit, tm1637MaxDigits]

theorem roundCarry_two (a b c x carry : Nat) (h : c + carry < 256) :
    ADC.roundCarry 2 (carry, [a, b, c, x])
      = if c + carry > 9 then (1, [a, b, 0, x]) else (0, [a, b, c + carry, x]) := by
  simp [ADC.roundCarry, tm1637RightDigit, tm1637MaxDigits, Nat.mod_eq_of_lt h]

theorem roundCarry_one (a b c x carry : Nat) (h : b + carry < 256) :
    ADC.roundCarry 1 (carry, [a, b, c, x])
      = if b + carry > 9 then (1, [a, 0, c, x]) else (0, [a, b + carry, c, x]) := by
  simp [ADC.roundCarry, tm1637RightDigit, tm1637MaxDigits, Nat.mod_eq_of_lt h]

theorem roundCarry_zero (a b c x carry : Nat) (h : a + carry < 256) :
    ADC.roundCarry 0 (carry, [a, b, c, x])
      = if a + carry > 9 then (1, [0, b, c, x]) else (0, [a + carry, b, c, x]) := by
  simp [ADC.roundCarry, tm1637RightDigit, tm1637MaxDigits, Nat.mod_eq_of_lt h]

/-- C3: for every buffer `[a, b, c, d]` of digits 0..9 standing for
`n = 1000a + 100b + 10c + d`, `roundDigits` leaves the four decimal digits of
`(10 * ((n + 4) / 10)) % 10000` in the buffer; `[0,0,1,6]` becomes `[0,0,2,0]` and
`[0,0,9,6]` becomes `[0,1,0,0]`. -/
theorem C3_roundDigits_value (a b c d : Nat) (ha : a ≤ 9) (hb : b ≤ 9) (hc : c ≤ 9)
    (hd : d ≤ 9) (s : State) (h : s.tm1637Data = [a, b, c, d]) :
    (ADC.roundDigits s).tm1637Data
        = digits4 (10 * ((1000 * a + 100 * b + 10 * c + d + 4) / 10) % 10000)
    ∧ (ADC.roundDigits { s with tm1637Data := [0, 0, 1, 6] }).tm1637Data = [0, 0, 2, 0]
    ∧ (ADC.roundDigits { s with tm1637Data := [0, 0, 9, 6] }).tm1637Data = [0, 1, 0, 0] := by
  refine ⟨?_, by simp [roundDigits_data 0 0 1 6, ADC.roundCarry, tm1637RightDigit, tm1637MaxDigits],
    by simp [roundDigits_data 0 0 9 6, ADC.roundCarry, tm1637RightDigit, tm1637MaxDigits]⟩
  rw [roundDigits_data a b c d s h]
  simp only [digits4]
  by_cases h5 : d > 5
  · rw [if_pos h5, roundCarry_two _ _ _ _ _ (by omega)]
    by_cases h2 : c + 1 > 9
    · rw [if_pos h2, roundCarry_one _ _ _ _ _ (by omega)]
      by_cases h1 : b + 1 > 9
      · rw [if_pos h1, roundCarry_zero _ _ _ _ _ (by omega)]
        by_cases h0 : a + 1 > 9
        · rw [if_pos h0]; simp only [List.cons.injEq, and_true]; omega
        · rw [if_neg h0]; simp only [List.cons.injEq, and_true]; omega
      · rw [if_neg h1, roundCarry_zero _ _ _ _ _ (by omega), if_neg (by omega)]
        simp only [List.cons.injEq, and_true]; omega
    · rw [if_neg h2, roundCarry_one _ _ _ _ _ (by omega), if_neg (by omega),
        roundCarry_zero _ _ _ _ _ (by omega), if_neg (by omega)]
      simp only [List.cons.injEq, and_true]; omega
  · rw [if_neg h5, roundCarry_two _ _ _ _ _ (by omega), if_neg (by omega),
      roundCarry_one _ _ _ _ _ (by omega), if_neg (by omega),
      roundCarry_zero _ _ _ _ _ (by omega), if_neg (by omega)]
    simp only [List.cons.injEq, and_true]; omega

/-- Witness of C3: the buffer `[0, 0, 9, 6]` of the specification. -/
theorem C3_roundDigits_value_witness :
    (ADC.roundDigits { ADC.init with tm1637Data := [0, 0, 9, 6] }).tm1637Data
      = digits4 (10 * ((1000 * 0 + 100 * 0 + 10 * 9 + 6 + 4) / 10) % 10000) :=
  (C3_roundDigits_value 0 0 9 6 (by decide) (by decide) (by decide) (by decide)
    { ADC.init with tm1637Data := [0, 0, 9, 6] } rfl).1

/-! ### Histories of the bus primitives -/

theorem trisClear_calls (bit : Nat) (s : State) : (trisClear bit s).calls = s.calls := rfl

theorem trisClear_display (bit : Nat) (s : State) : display (trisClear bit s) = display s := rfl

theorem trisSet_calls (bit : Nat) (s : State) : (trisSet bit s).calls = s.calls := rfl

theorem trisSet_display (bit : Nat) (s : State) : display (trisSet bit s) = display s := rfl

theorem portClear_calls (bit : Nat) (s : State) : (portClear bit s).calls = s.calls := rfl

theorem portClear_display (bit : Nat) (s : State) : display (portClear bit s) = display s := rfl

theorem delayUs_calls (n : Nat) (s : State) : (delayUs n s).calls = s.calls := rfl

theorem delayUs_display (n : Nat) (s : State) : display (delayUs n s) = display s := rfl

theorem readDio_calls (env : Nat → Bool) (s : State) : (readDio env s).calls = s.calls := rfl

theorem readDio_display (env : Nat → Bool) (s : State) : display (readDio env s) = display s := rfl

theorem logCall_calls (op : BusOp) (s : State) : (logCall op s).calls = s.calls ++ [op] := rfl

theorem logCall_display (op : BusOp) (s : State) : display (logCall op s) = display s := rfl

theorem putDataBit_calls (b : Nat) (s : State) : (putDataBit b s).calls = s.calls := by
  unfold putDataBit
  split <;> rfl

theorem putDataBit_display (b : Nat) (s : State) : display (putDataBit b s) = display s := by
  unfold putDataBit
  split <;> rfl

theorem byteWriteBit_frame (acc : Nat × State) (i : Nat) :
    (byteWriteBit acc i).2.calls = acc.2.calls
    ∧ display (byteWriteBit acc i).2 = display acc.2 := by
  simp only [byteWriteBit, delayUs_calls, trisSet_calls, putDataBit_calls, portClear_calls,
    trisClear_calls, delayUs_display, trisSet_display, putDataBit_display, portClear_display,
    trisClear_display, and_self]

theorem byteWriteFold_frame (l : List Nat) :
    ∀ acc : Nat × State, (l.foldl byteWriteBit acc).2.calls = acc.2.calls
      ∧ display (l.foldl byteWriteBit acc).2 = display acc.2 := by
  induction l with
  | nil => intro acc; exact ⟨rfl, rfl⟩
  | cons i rest ih =>
    intro acc
    rw [List.foldl_cons]
    exact ⟨(ih _).1.trans (byteWriteBit_frame acc i).1, (ih _).2.trans (byteWriteBit_frame acc i).2⟩

theorem byteWriteAckEnd_frame (ack : Nat) (s : State) :
    (byteWriteAckEnd ack s).calls = s.calls
    ∧ display (byteWriteAckEnd ack s) = display s := by
  unfold byteWriteAckEnd
  split <;>
    simp only [delayUs_calls, trisSet_calls, portClear_calls, trisClear_calls, delayUs_display,
      trisSet_display, portClear_display, trisClear_display, and_self]

theorem byteWriteAck_frame (env : Nat → Bool) (s : State) :
    (byteWriteAck env s).2.calls = s.calls
    ∧ display (byteWriteAck env s).2 = display s := by
  simp only [byteWriteAck, (byteWriteAckEnd_frame _ _).1, (byteWriteAckEnd_frame _ _).2,
    readDio_calls, readDio_display, delayUs_calls, trisSet_calls, portClear_calls,
    trisClear_calls, delayUs_display, trisSet_display, portClear_display, trisClear_display,
    and_self]

theorem byteWrite_frame (env : Nat → Bool) (b : Nat) (s : State) :
    (tm1637ByteWrite env b s).2.calls = s.calls ++ [BusOp.write b]
    ∧ display (tm1637ByteWrite env b s).2 = display s := by
  unfold tm1637ByteWrite byteWriteData
  exact ⟨(byteWriteAck_frame env _).1.trans (byteWriteFold_frame _ _).1,
    (byteWriteAck_frame env _).2.trans (byteWriteFold_frame _ _).2⟩

theorem counter_digitSegs_congr (s t : State) (h : display t = display s) (sb ctr : Nat) :
    Counter.digitSegs t sb ctr = Counter.digitSegs s sb ctr := by
  simp only [display, Prod.mk.injEq] at h
  obtain ⟨h1, _, h3, _, _⟩ := h
  simp only [Counter.digitSegs, h1, h3]

theorem adc_digitSegs_congr (s t : State) (h : display t = display s) (sb ctr : Nat) :
    ADC.digitSegs t sb ctr = ADC.digitSegs s sb ctr := by
  simp only [display, Prod.mk.injEq] at h
  obtain ⟨h1, _, h3, _, h5⟩ := h
  simp only [ADC.digitSegs, h1, h3, h5]

theorem counter_updateFold (env : Nat → Bool) (s : State) (l : List Nat) :
    ∀ (sb : Nat) (t : State), display t = display s →
      (l.foldl (Counter.updateStep env) (sb, t)).2.calls
          = t.calls ++ (Counter.renderFrom s sb l).map BusOp.write
      ∧ display (l.foldl (Counter.updateStep env) (sb, t)).2 = display s := by
  induction l with
  | nil => intro sb t h; exact ⟨by simp [Counter.renderFrom], h⟩
  | cons ctr rest ih =>
    intro sb t h
    rw [List.foldl_cons]
    have hw := byteWrite_frame env (Counter.digitSegs t sb ctr).1 t
    obtain ⟨h1, h2⟩ := ih (Counter.digitSegs t sb ctr).2
      (tm1637ByteWrite env (Counter.digitSegs t sb ctr).1 t).2 (hw.2.trans h)
    refine ⟨?_, h2⟩
    simp only [Counter.updateStep]
    rw [h1, hw.1, counter_digitSegs_congr s t h]
    simp [Counter.renderFrom]

theorem adc_updateFold (env : Nat → Bool) (s : State) (l : List Nat) :
    ∀ (sb : Nat) (t : State), display t = display s →
      (l.foldl (ADC.updateStep env) (sb, t)).2.calls
          = t.calls ++ (ADC.renderFrom s sb l).map BusOp.write
      ∧ display (l.foldl (ADC.updateStep env) (sb, t)).2 = display s := by
  induction l with
  | nil => intro sb t h; exact ⟨by simp [ADC.renderFrom], h⟩
  | cons ctr rest ih =>
    intro sb t h
    rw [List.foldl_cons]
    have hw := byteWrite_frame env (ADC.digitSegs t sb ctr).1 t
    obtain ⟨h1, h2⟩ := ih (ADC.digitSegs t sb ctr).2
      (tm1637ByteWrite env (ADC.digitSegs t sb ctr).1 t).2 (hw.2.trans h)
    refine ⟨?_, h2⟩
    simp only [ADC.updateStep]
    rw [h1, hw.1, adc_digitSegs_congr s t h]
    simp [ADC.renderFrom]

theorem display_brightness (s t : State) (h : display t = display s) :
    t.tm1637Brightness = s.tm1637Brightness := by
  simp only [display, Prod.mk.injEq] at h
  exact h.2.1

theorem start_calls (s : State) :
    (tm1637StartCondition s).calls = s.calls ++ [BusOp.start] := by
  simp only [tm1637StartCondition, delayUs_calls, trisSet_calls, portClear_calls, trisClear_calls,
    logCall_calls]

theorem start_display (s : State) : display (tm1637StartCondition s) = display s := by
  simp only [tm1637StartCondition, delayUs_display, trisSet_display, portClear_display,
    trisClear_display, logCall_display]

theorem stop_calls (s : State) :
    (tm1637StopCondition s).calls = s.calls ++ [BusOp.stop] := by
  simp only [tm1637StopCondition, delayUs_calls, trisSet_calls, portClear_calls, trisClear_calls,
    logCall_calls]

theorem stop_display (s : State) : display (tm1637StopCondition s) = display s := by
  simp only [tm1637StopCondition, delayUs_display, trisSet_display, portClear_display,
    trisClear_display, logCall_display]

theorem byteWrite_calls (env : Nat → Bool) (b : Nat) (s : State) :
    (tm1637ByteWrite env b s).2.calls = s.calls ++ [BusOp.write b] :=
  (byteWrite_frame env b s).1

theorem byteWrite_display (env : Nat → Bool) (b : Nat) (s : State) :
    display (tm1637ByteWrite env b s).2 = display s :=
  (byteWrite_frame env b s).2

theorem counter_update_calls (env : Nat → Bool) (s : State) :
    (Counter.tm1637UpdateDisplay env s).calls
        = s.calls ++ updateOps (Counter.renderSegs s) s.tm1637Brightness
    ∧ display (Counter.tm1637UpdateDisplay env s) = display s := by
  have a3 := counter_updateFold env s (List.range tm1637MaxDigits) (stopBlankingInit s)
    (tm1637ByteWrite env tm1637ByteSetAddr (tm1637StartCondition
      (tm1637StopCondition (tm1637ByteWrite env tm1637ByteSetData
        (tm1637StartCondition s)).2))).2
    (by simp only [byteWrite_display, start_display, stop_display])
  have hb2 : (tm1637StartCondition (tm1637StopCondition
      ((List.range tm1637MaxDigits).foldl (Counter.updateStep env) (stopBlankingInit s,
        (tm1637ByteWrite env tm1637ByteSetAddr (tm1637StartCondition
          (tm1637StopCondition (tm1637ByteWrite env tm1637ByteSetData
            (tm1637StartCondition s)).2))).2)).2)).tm1637Brightness = s.tm1637Brightness :=
    display_brightness s _ ((start_display _).trans ((stop_display _).trans a3.2))
  constructor
  · simp only [Counter.tm1637UpdateDisplay, hb2, stop_calls, start_calls, byteWrite_calls, a3.1]
    simp only [updateOps, Counter.renderSegs, tm1637ByteSetData, tm1637ByteSetAddr, tm1637ByteSetOn,
      List.append_assoc, List.cons_append, List.nil_append]
  · simp only [Counter.tm1637UpdateDisplay, stop_display, start_display, byteWrite_display, a3.2]

theorem adc_update_calls (env : Nat → Bool) (s : State) :
    (ADC.tm1637UpdateDisplay env s).calls
        = s.calls ++ updateOps (ADC.renderSegs s) s.tm1637Brightness
    ∧ display (ADC.tm1637UpdateDisplay env s) = display s := by
  have a3 := adc_updateFold env s (List.range tm1637MaxDigits) (stopBlankingInit s)
    (tm1637ByteWrite env tm1637ByteSetAddr (tm1637StartCondition
      (tm1637StopCondition (tm1637ByteWrite env tm1637ByteSetData
        (tm1637StartCondition s)).2))).2
    (by simp only [byteWrite_display, start_display, stop_display])
  have hb2 : (tm1637StartCondition (tm1637StopCondition
      ((List.range tm1637MaxDigits).foldl (ADC.updateStep env) (stopBlankingInit s,
        (tm1637ByteWrite env tm1637ByteSetAddr (tm1637StartCondition
          (tm1637StopCondition (tm1637ByteWrite env tm1637ByteSetData
            (tm1637StartCondition s)).2))).2)).2)).tm1637Brightness = s.tm1637Brightness :=
    display_brightness s _ ((start_display _).trans ((stop_display _).trans a3.2))
  constructor
  · simp only [ADC.tm1637UpdateDisplay, hb2, stop_calls, start_calls, byteWrite_calls, a3.1]
    simp only [updateOps, ADC.renderSegs, tm1637ByteSetData, tm1637ByteSetAddr, tm1637ByteSetOn,
      List.append_assoc, List.cons_append, List.nil_append]
  · simp only [ADC.tm1637UpdateDisplay, stop_display, start_display, byteWrite_display, a3.2]

theorem bytesWritten_updateOps (a b c d br : Nat) :
    bytesWritten (updateOps [a, b, c, d] br) = [0x40, 0xC0, a, b, c, d, (0x88 + br) % 256] := rfl

theorem counter_renderSegs_four (s : State) :
    Counter.renderSegs s
      = [(Counter.digitSegs s (stopBlankingInit s) 0).1,
         (Counter.digitSegs s (Counter.digitSegs s (stopBlankingInit s) 0).2 1).1,
         (Counter.digitSegs s (Counter.digitSegs s
            (Counter.digitSegs s (stopBlankingInit s) 0).2 1).2 2).1,
         (Counter.digitSegs s (Counter.digitSegs s (Counter.digitSegs s
            (Counter.digitSegs s (stopBlankingInit s) 0).2 1).2 2).2 3).1] := rfl

theorem adc_renderSegs_four (s : State) :
    ADC.renderSegs s
      = [(ADC.digitSegs s (stopBlankingInit s) 0).1,
         (ADC.digitSegs s (ADC.digitSegs s (stopBlankingInit s) 0).2 1).1,
         (ADC.digitSegs s (ADC.digitSegs s
            (ADC.digitSegs s (stopBlankingInit s) 0).2 1).2 2).1,
         (ADC.digitSegs s (ADC.digitSegs s (ADC.digitSegs s
            (ADC.digitSegs s (stopBlankingInit s) 0).2 1).2 2).2 3).1] := rfl

theorem counter_segmentBytes_eq (env : Nat → Bool) (s : State) :
    Counter.segmentBytes env s = Counter.renderSegs s := by
  unfold Counter.segmentBytes segmentsOf
  rw [(counter_update_calls env s).1, List.drop_left, counter_renderSegs_four,
    bytesWritten_updateOps]
  rfl

theorem adc_segmentBytes_eq (env : Nat → Bool) (s : State) :
    ADC.segmentBytes env s = ADC.renderSegs s := by
  unfold ADC.segmentBytes segmentsOf
  rw [(adc_update_calls env s).1, List.drop_left, adc_renderSegs_four, bytesWritten_updateOps]
  rfl

/-! ### Rendering of the buffer -/

/-- C4 (amended): on the buffer `[0, 0, 3, 4]` with no decimal point and all four
digits displayed, `tm1637UpdateDisplay` (both builds) sends the segment bytes
`0x00, 0x00, 0x4F, 0x66` when the zero blanking flag is non-zero and
`0x3F, 0x3F, 0x4F, 0x66` when the flag is 0. -/
theorem C4_blanking_by_flag (env : Nat → Bool) (s : State) (hdata : s.tm1637Data = [0, 0, 3, 4])
    (hdp : 4 ≤ s.decimalPointPos) (hn : 4 ≤ s.numDisplayedDigits) :
    (s.zeroBlanking ≠ 0 →
      Counter.segmentBytes env s = [0x00, 0x00, 0x4F, 0x66]
      ∧ ADC.segmentBytes env s = [0x00, 0x00, 0x4F, 0x66])
    ∧ (s.zeroBlanking = 0 →
      Counter.segmentBytes env s = [0x3F, 0x3F, 0x4F, 0x66]
      ∧ ADC.segmentBytes env s = [0x3F, 0x3F, 0x4F, 0x66]) := by
  rw [counter_segmentBytes_eq, adc_segmentBytes_eq, counter_renderSegs_four, adc_renderSegs_four]
  have h0 : ¬ (0 = s.decimalPointPos) := by omega
  have h1 : ¬ (1 = s.decimalPointPos) := by omega
  have h2 : ¬ (2 = s.decimalPointPos) := by omega
  have h3 : ¬ (3 = s.decimalPointPos) := by omega
  have g0 : ¬ ((0 : Int) > (s.numDisplayedDigits : Int) - 1) := by omega
  have g1 : ¬ ((1 : Int) > (s.numDisplayedDigits : Int) - 1) := by omega
  have g2 : ¬ ((2 : Int) > (s.numDisplayedDigits : Int) - 1) := by omega
  have g3 : ¬ ((3 : Int) > (s.numDisplayedDigits : Int) - 1) := by omega
  constructor
  · intro hz
    simp [Counter.digitSegs, ADC.digitSegs, stopBlankingInit, hz, hdata, h0, h1, h2, h3,
      g0, g1, g2, g3, numToSeg, tm1637DisplayNumtoSeg, tm1637RightDigit, tm1637MaxDigits]
  · intro hz
    simp [Counter.digitSegs, ADC.digitSegs, stopBlankingInit, hz, hdata, h0, h1, h2, h3,
      g0, g1, g2, g3, numToSeg, tm1637DisplayNumtoSeg, tm1637RightDigit, tm1637MaxDigits]

/-- Witness of C4 (amended): the counter build's initial configuration
(zero blanking flag 1, decimal point position 99) with four digits displayed. -/
theorem C4_blanking_by_flag_witness :
    Counter.segmentBytes (fun _ => false)
        { Counter.init with tm1637Data := [0, 0, 3, 4], numDisplayedDigits := 4 }
      = [0x00, 0x00, 0x4F, 0x66] :=
  ((C4_blanking_by_flag (fun _ => false)
    { Counter.init with tm1637Data := [0, 0, 3, 4], numDisplayedDigits := 4 }
    rfl (by decide) (by decide)).1 (by decide)).1

/-- C4 as stated fails: with the zero blanking flag 0 the buffer `[0, 0, 3, 4]`
is not sent as `0x00, 0x00, 0x4F, 0x66` (both builds show the leading zeros), and
with the flag 1 it is not sent as `0x3F, 0x3F, 0x4F, 0x66`. -/
theorem C4_counterexample :
    Counter.segmentBytes (fun _ => false)
        { Counter.init with tm1637Data := [0, 0, 3, 4], zeroBlanking := 0 }
      ≠ [0x00, 0x00, 0x4F, 0x66]
    ∧ ADC.segmentBytes (fun _ => false)
        { ADC.init with tm1637Data := [0, 0, 3, 4], zeroBlanking := 0, decimalPointPos := 99,
                        numDisplayedDigits := 4 }
      ≠ [0x00, 0x00, 0x4F, 0x66]
    ∧ Counter.segmentBytes (fun _ => false)
        { Counter.init with tm1637Data := [0, 0, 3, 4], zeroBlanking := 1 }
      ≠ [0x3F, 0x3F, 0x4F, 0x66] := by
  rw [counter_segmentBytes_eq, adc_segmentBytes_eq, counter_segmentBytes_eq]
  decide

/-- C5 (amended): with `decimalPointPos = 1` and at least two digits displayed, for
every buffer `[a, b, c, d]` of digits 0..9 the byte sent for position 1 (both
builds) is `SegmentTable[b] OR 0x80` when the zero blanking flag is 0 or one of
the digits `a`, `b` is non-zero; when the flag is non-zero and `a = b = 0` the
position is blanked and the byte is `0x00`, without the decimal point. -/
theorem C5_decimal_point_unless_blanked (env : Nat → Bool) (s : State) (a b c d : Nat)
    (_ha : a ≤ 9) (_hb : b ≤ 9) (_hc : c ≤ 9) (_hd : d ≤ 9)
    (hdata : s.tm1637Data = [a, b, c, d]) (hdp : s.decimalPointPos = 1)
    (hn : 2 ≤ s.numDisplayedDigits) :
    ((s.zeroBlanking = 0 ∨ a ≠ 0 ∨ b ≠ 0) →
      (Counter.segmentBytes env s)[1]? = some (numToSeg b ||| 0x80)
      ∧ (ADC.segmentBytes env s)[1]? = some (numToSeg b ||| 0x80))
    ∧ ((s.zeroBlanking ≠ 0 ∧ a = 0 ∧ b = 0) →
      (Counter.segmentBytes env s)[1]? = some 0x00
      ∧ (ADC.segmentBytes env s)[1]? = some 0x00) := by
  rw [counter_segmentBytes_eq, adc_segmentBytes_eq, counter_renderSegs_four, adc_renderSegs_four]
  have g1 : ¬ ((1 : Int) > (s.numDisplayedDigits : Int) - 1) := by omega
  simp only [List.getElem?_cons_succ, List.getElem?_cons_zero, Option.some.injEq]
  constructor
  · intro h
    by_cases hz : s.zeroBlanking = 0
    · simp [Counter.digitSegs, ADC.digitSegs, stopBlankingInit, hz, hdata, hdp, g1]
    · by_cases ha0 : a = 0
      · have hb0 : b ≠ 0 := by
          rcases h with h | h | h
          · exact absurd h hz
          · exact absurd ha0 h
          · exact h
        simp [Counter.digitSegs, ADC.digitSegs, stopBlankingInit, hz, hdata, hdp, g1, ha0, hb0,
          tm1637RightDigit, tm1637MaxDigits]
      · simp [Counter.digitSegs, ADC.digitSegs, stopBlankingInit, hz, hdata, hdp, g1, ha0]
  · rintro ⟨hz, ha0, hb0⟩
    simp [Counter.digitSegs, ADC.digitSegs, stopBlankingInit, hz, hdata, ha0, hb0,
      tm1637RightDigit, tm1637MaxDigits]

/-- Witness of C5 (amended): the buffer `[0, 5, 3, 4]` with zero blanking on. -/
theorem C5_decimal_point_unless_blanked_witness :
    (Counter.segmentBytes (fun _ => false)
        { Counter.init with tm1637Data := [0, 5, 3, 4], decimalPointPos := 1 })[1]?
      = some (numToSeg 5 ||| 0x80) :=
  ((C5_decimal_point_unless_blanked (fun _ => false)
    { Counter.init with tm1637Data := [0, 5, 3, 4], decimalPointPos := 1 } 0 5 3 4
    (by decide) (by decide) (by decide) (by decide) rfl rfl (by decide)).1
      (Or.inr (Or.inr (by decide)))).1

/-- C5 as stated fails: with the zero blanking flag set, `decimalPointPos = 1` and
the buffer `[0, 0, 3, 4]`, position 1 is sent as the blank byte `0x00` (both
builds), not as `SegmentTable[0] OR 0x80 = 0xBF`. -/
theorem C5_counterexample :
    (Counter.segmentBytes (fun _ => false)
        { Counter.init with tm1637Data := [0, 0, 3, 4], decimalPointPos := 1 })[1]? = some 0x00
    ∧ (ADC.segmentBytes (fun _ => false)
        { ADC.init with tm1637Data := [0, 0, 3, 4], decimalPointPos := 1, zeroBlanking := 1,
                        numDisplayedDigits := 4 })[1]? = some 0x00
    ∧ numToSeg 0 ||| 0x80 = 0xBF := by
  rw [counter_segmentBytes_eq, adc_segmentBytes_eq]
  decide

/-- C6: in the ADC build, for every buffer, zero blanking flag and decimal point
position and every `numDisplayedDigits = n` in 1..4, each position `i ≥ n` is sent
as `0x00`, and each position `i < n` is sent as it is with the limit 4 and as the
counter build (which has no limit) sends it. -/
theorem C6_digit_limit (env : Nat → Bool) (s : State) (n : Nat) (h1 : 1 ≤ n) (h4 : n ≤ 4)
    (hn : s.numDisplayedDigits = n) (i : Nat) (hi : i < 4) :
    (n ≤ i → (ADC.segmentBytes env s)[i]? = some 0x00)
    ∧ (i < n →
        (ADC.segmentBytes env s)[i]?
          = (ADC.segmentBytes env { s with numDisplayedDigits := 4 })[i]?
        ∧ (ADC.segmentBytes env s)[i]? = (Counter.segmentBytes env s)[i]?) := by
  rw [counter_segmentBytes_eq, adc_segmentBytes_eq, adc_segmentBytes_eq,
    counter_renderSegs_four, adc_renderSegs_four, adc_renderSegs_four]
  simp only [ADC.digitSegs, Counter.digitSegs, hn, stopBlankingInit]
  interval_cases n <;> interval_cases i <;> simp

/-- Witness of C6: limit 3 on the buffer `[1, 2, 3, 4]` with the decimal point at
position 3: position 3 is sent as `0x00`. -/
theorem C6_digit_limit_witness :
    (ADC.segmentBytes (fun _ => false)
        { ADC.init with tm1637Data := [1, 2, 3, 4], decimalPointPos := 3,
                        numDisplayedDigits := 3 })[3]? = some 0x00 :=
  (C6_digit_limit (fun _ => false)
    { ADC.init with tm1637Data := [1, 2, 3, 4], decimalPointPos := 3, numDisplayedDigits := 3 }
    3 (by decide) (by decide) rfl 3 (by decide)).1 (by decide)

/-- C7 (amended): `getDigits 0` followed by `tm1637UpdateDisplay` with the zero
blanking flag 0, `decimalPointPos = 0` and all four digits displayed leaves the
buffer `[0, 0, 0, 0]` and sends the segment bytes `0xBF, 0x3F, 0x3F, 0x3F`
(both builds). -/
theorem C7_zero_with_decimal_point (env : Nat → Bool) (s : State)
    (hlen : s.tm1637Data.length = 4) (hz : s.zeroBlanking = 0) (hdp : s.decimalPointPos = 0)
    (hn : 4 ≤ s.numDisplayedDigits) :
    (ADC.getDigits 0 s).2.tm1637Data = [0, 0, 0, 0]
    ∧ ADC.segmentBytes env (ADC.getDigits 0 s).2 = [0xBF, 0x3F, 0x3F, 0x3F]
    ∧ (Counter.getDigits 0 s).2.tm1637Data = [0, 0, 0, 0]
    ∧ Counter.segmentBytes env (Counter.getDigits 0 s).2 = [0xBF, 0x3F, 0x3F, 0x3F] := by
  rw [counter_segmentBytes_eq, adc_segmentBytes_eq, counter_renderSegs_four, adc_renderSegs_four,
    adc_getDigits_state 0 s hlen, counter_getDigits_state 0 s hlen]
  have g0 : ¬ ((0 : Int) > (s.numDisplayedDigits : Int) - 1) := by omega
  have g1 : ¬ ((1 : Int) > (s.numDisplayedDigits : Int) - 1) := by omega
  have g2 : ¬ ((2 : Int) > (s.numDisplayedDigits : Int) - 1) := by omega
  have g3 : ¬ ((3 : Int) > (s.numDisplayedDigits : Int) - 1) := by omega
  simp [Counter.digitSegs, ADC.digitSegs, stopBlankingInit, hz, hdp, g0, g1, g2, g3, digits4,
    numToSeg, tm1637DisplayNumtoSeg]

/-- Witness of C7 (amended): the configuration `main` of the ADC build sets
(`zeroBlanking = 0`, `decimalPointPos = 0`), with four digits displayed. -/
theorem C7_zero_with_decimal_point_witness :
    ADC.segmentBytes (fun _ => false)
        (ADC.getDigits 0 { ADC.init with decimalPointPos := 0, numDisplayedDigits := 4 }).2
      = [0xBF, 0x3F, 0x3F, 0x3F] :=
  (C7_zero_with_decimal_point (fun _ => false)
    { ADC.init with decimalPointPos := 0, numDisplayedDigits := 4 }
    (by decide) (by decide) (by decide) (by decide)).2.1

/-- C7 as stated fails: for the value 0 with the zero blanking flag 0,
`decimalPointPos = 0` and four digits displayed, the ADC build does not send
`0xBF, 0x00, 0x00, 0x3F`: positions 1 and 2 are sent as `0x3F`. -/
theorem C7_counterexample :
    ADC.segmentBytes (fun _ => false)
        (ADC.getDigits 0 { ADC.init with decimalPointPos := 0, numDisplayedDigits := 4 }).2
      ≠ [0xBF, 0x00, 0x00, 0x3F]
    ∧ (ADC.segmentBytes (fun _ => false)
        (ADC.getDigits 0 { ADC.init with decimalPointPos := 0, numDisplayedDigits := 4 }).2)[1]?
      = some 0x3F := by
  rw [adc_segmentBytes_eq, adc_getDigits_state 0 _ (by decide)]
  decide

/-- C8: for every buffer and configuration, the bus operations issued by
`tm1637UpdateDisplay` (both builds) are exactly Start, Write 0x40, Stop; Start,
Write 0xC0, Write s0, Write s1, Write s2, Write s3, Stop; Start,
Write (0x88 + brightness) mod 256, Stop, where `s0..s3` are the segment bytes
computed for the buffer positions 0..3; seven bytes are written in all. -/
theorem C8_update_bus_operations (env : Nat → Bool) (s : State) :
    (∃ s0 s1 s2 s3, Counter.renderSegs s = [s0, s1, s2, s3]
      ∧ (Counter.tm1637UpdateDisplay env s).calls
          = s.calls ++ [BusOp.start, BusOp.write 0x40, BusOp.stop,
              BusOp.start, BusOp.write 0xC0, BusOp.write s0, BusOp.write s1, BusOp.write s2,
              BusOp.write s3, BusOp.stop,
              BusOp.start, BusOp.write ((0x88 + s.tm1637Brightness) % 256), BusOp.stop]
      ∧ (bytesWritten ((Counter.tm1637UpdateDisplay env s).calls.drop s.calls.length)).length = 7)
    ∧ (∃ s0 s1 s2 s3, ADC.renderSegs s = [s0, s1, s2, s3]
      ∧ (ADC.tm1637UpdateDisplay env s).calls
          = s.calls ++ [BusOp.start, BusOp.write 0x40, BusOp.stop,
              BusOp.start, BusOp.write 0xC0, BusOp.write s0, BusOp.write s1, BusOp.write s2,
              BusOp.write s3, BusOp.stop,
              BusOp.start, BusOp.write ((0x88 + s.tm1637Brightness) % 256), BusOp.stop]
      ∧ (bytesWritten ((ADC.tm1637UpdateDisplay env s).calls.drop s.calls.length)).length = 7) := by
  constructor
  · refine ⟨_, _, _, _, counter_renderSegs_four s, ?_, ?_⟩
    · rw [(counter_update_calls env s).1, counter_renderSegs_four]; rfl
    · rw [(counter_update_calls env s).1, List.drop_left, counter_renderSegs_four]; rfl
  · refine ⟨_, _, _, _, adc_renderSegs_four s, ?_, ?_⟩
    · rw [(adc_update_calls env s).1, adc_renderSegs_four]; rfl
    · rw [(adc_update_calls env s).1, List.drop_left, adc_renderSegs_four]; rfl

/-! ### Pin histories -/

theorem trisClear_pins (bit : Nat) (s : State) : (trisClear bit s).pins = s.pins ++ [PinEv.tris (s.TRISA &&& (0xFF ^^^ (1 <<< bit)))] := rfl

theorem trisClear_tris (bit : Nat) (s : State) : (trisClear bit s).TRISA = s.TRISA &&& (0xFF ^^^ (1 <<< bit)) := rfl

theorem trisClear_reads (bit : Nat) (s : State) : (trisClear bit s).reads = s.reads := rfl

theorem trisSet_pins (bit : Nat) (s : State) : (trisSet bit s).pins = s.pins ++ [PinEv.tris (s.TRISA ||| (1 <<< bit))] := rfl

theorem trisSet_tris (bit : Nat) (s : State) : (trisSet bit s).TRISA = s.TRISA ||| (1 <<< bit) := rfl

theorem trisSet_reads (bit : Nat) (s : State) : (trisSet bit s).reads = s.reads := rfl

theorem portClear_pins (bit : Nat) (s : State) : (portClear bit s).pins = s.pins ++ [PinEv.port (s.PORTA &&& (0xFF ^^^ (1 <<< bit)))] := rfl

theorem portClear_tris (bit : Nat) (s : State) : (portClear bit s).TRISA = s.TRISA := rfl

theorem portClear_reads (bit : Nat) (s : State) : (portClear bit s).reads = s.reads := rfl

theorem delayUs_pins (n : Nat) (s : State) : (delayUs n s).pins = s.pins ++ [PinEv.delayUs n] := rfl

theorem delayUs_tris (n : Nat) (s : State) : (delayUs n s).TRISA = s.TRISA := rfl

theorem delayUs_reads (n : Nat) (s : State) : (delayUs n s).reads = s.reads := rfl

theorem readDio_pins (env : Nat → Bool) (s : State) : (readDio env s).pins = s.pins ++ [PinEv.readDio (dioLevel env s)] := rfl

theorem readDio_tris (env : Nat → Bool) (s : State) : (readDio env s).TRISA = s.TRISA := rfl

theorem readDio_reads (env : Nat → Bool) (s : State) : (readDio env s).reads = s.reads + 1 := rfl

theorem logCall_pins (op : BusOp) (s : State) : (logCall op s).pins = s.pins := rfl

theorem logCall_tris (op : BusOp) (s : State) : (logCall op s).TRISA = s.TRISA := rfl

theorem logCall_reads (op : BusOp) (s : State) : (logCall op s).reads = s.reads := rfl

theorem clockEdges_append (l1 l2 : List PinEv) :
    ∀ t : Nat, clockEdges t (l1 ++ l2) = clockEdges t l1 ++ clockEdges (trisAfter t l1) l2 := by
  induction l1 with
  | nil => intro t; rfl
  | cons e rest ih =>
    intro t
    cases e with
    | tris v =>
      show clockEdges t (PinEv.tris v :: (rest ++ l2)) = _
      simp only [clockEdges, trisAfter]
      split
      · exact congrArg (List.cons _) (ih v)
      · exact ih v
    | port v => exact ih t
    | delayUs n => exact ih t
    | readDio level => exact ih t

theorem trisAfter_append (l1 l2 : List PinEv) :
    ∀ t : Nat, trisAfter t (l1 ++ l2) = trisAfter (trisAfter t l1) l2 := by
  induction l1 with
  | nil => intro t; rfl
  | cons e rest ih =>
    intro t
    cases e with
    | tris v => exact ih v
    | port v => exact ih t
    | delayUs n => exact ih t
    | readDio level => exact ih t

theorem and_one_pos_iff (b : Nat) : (b &&& 1 > 0) ↔ b.testBit 0 = true := by
  rw [Nat.and_one_is_mod, Nat.testBit_zero]
  simp only [decide_eq_true_eq]
  omega

theorem byteWriteBit_pins (acc : Nat × State) (i : Nat) :
    ∃ evs, (byteWriteBit acc i).2.pins = acc.2.pins ++ evs
      ∧ clockEdges acc.2.TRISA evs = [acc.1.testBit 0]
      ∧ trisAfter acc.2.TRISA evs = (byteWriteBit acc i).2.TRISA
      ∧ (byteWriteBit acc i).2.reads = acc.2.reads := by
  have c5 : Nat.testBit 223 5 = false := by decide
  have c4 : Nat.testBit 239 4 = false := by decide
  have d5 : Nat.testBit 16 5 = false := by decide
  have d4 : Nat.testBit 16 4 = true := by decide
  have e5 : Nat.testBit 32 5 = true := by decide
  have e4 : Nat.testBit 32 4 = false := by decide
  by_cases hbit : acc.1 &&& 1 > 0
  · have hb := (and_one_pos_iff acc.1).1 hbit
    simp only [byteWriteBit, putDataBit, if_pos hbit, delayUs_pins, trisSet_pins, portClear_pins,
      trisClear_pins, delayUs_tris, trisSet_tris, portClear_tris, trisClear_tris,
      delayUs_reads, trisSet_reads, portClear_reads, trisClear_reads,
      List.append_assoc, List.cons_append, List.nil_append, and_true]
    refine ⟨_, rfl, ?_, ?_⟩
    · simp [clockEdges, tm1637clkTrisBit, tm1637dioTrisBit, hb, c5, c4, d5, d4, e5, e4]
    · simp [trisAfter]
  · have hb : acc.1.testBit 0 = false := by
      cases h : acc.1.testBit 0
      · rfl
      · exact absurd ((and_one_pos_iff acc.1).2 h) hbit
    simp only [byteWriteBit, putDataBit, if_neg hbit, delayUs_pins, trisSet_pins, portClear_pins,
      trisClear_pins, delayUs_tris, trisSet_tris, portClear_tris, trisClear_tris,
      delayUs_reads, trisSet_reads, portClear_reads, trisClear_reads,
      List.append_assoc, List.cons_append, List.nil_append, and_true]
    refine ⟨_, rfl, ?_, ?_⟩
    · simp [clockEdges, tm1637clkTrisBit, tm1637dioTrisBit, hb, c5, c4, d5, d4, e5, e4]
    · simp [trisAfter]

theorem byteWriteFold_pins (l : List Nat) :
    ∀ acc : Nat × State, ∃ evs, (l.foldl byteWriteBit acc).2.pins = acc.2.pins ++ evs
      ∧ clockEdges acc.2.TRISA evs = (List.range l.length).map (fun i => acc.1.testBit i)
      ∧ trisAfter acc.2.TRISA evs = (l.foldl byteWriteBit acc).2.TRISA
      ∧ (l.foldl byteWriteBit acc).2.reads = acc.2.reads := by
  induction l with
  | nil => intro acc; exact ⟨[], by simp, rfl, rfl, rfl⟩
  | cons i rest ih =>
    intro acc
    obtain ⟨e1, p1, c1, t1, r1⟩ := byteWriteBit_pins acc i
    obtain ⟨e2, p2, c2, t2, r2⟩ := ih (byteWriteBit acc i)
    refine ⟨e1 ++ e2, ?_, ?_, ?_, ?_⟩
    · rw [List.foldl_cons, p2, p1, List.append_assoc]
    · rw [clockEdges_append, c1, t1, c2, List.length_cons, List.range_succ_eq_map, List.map_cons,
        List.map_map]
      have hsh : (byteWriteBit acc i).1 = acc.1 >>> 1 := rfl
      simp only [hsh, Nat.testBit_shiftRight, List.singleton_append, List.cons.injEq, true_and]
      apply List.map_congr_left
      intro j _
      simp [Nat.add_comm]
    · rw [trisAfter_append, t1, t2, List.foldl_cons]
    · rw [List.foldl_cons, r2, r1]

theorem decode_testBit (n : Nat) :
    ∀ b : Nat, decodeLsbFirst ((List.range n).map (fun i => b.testBit i)) = b % 2 ^ n := by
  induction n with
  | zero => intro b; simp [decodeLsbFirst, Nat.mod_one]
  | succ n ih =>
    intro b
    rw [List.range_succ_eq_map, List.map_cons, List.map_map]
    have h : ((fun i => b.testBit i) ∘ Nat.succ) = fun i => (b / 2).testBit i := by
      funext j
      simp [Nat.testBit_succ]
    rw [h]
    simp only [decodeLsbFirst]
    rw [ih (b / 2), Nat.testBit_zero, pow_succ, Nat.mul_comm (2 ^ n) 2, Nat.mod_mul]
    rcases Nat.mod_two_eq_zero_or_one b with h2 | h2 <;> simp [h2]

theorem byteWriteData_pins (b : Nat) (s : State) :
    ∃ evs, (byteWriteData b s).pins = s.pins ++ evs
      ∧ clockEdges s.TRISA evs = (List.range 8).map (fun i => b.testBit i)
      ∧ trisAfter s.TRISA evs = (byteWriteData b s).TRISA
      ∧ (byteWriteData b s).reads = s.reads := by
  obtain ⟨evs, h1, h2, h3, h4⟩ := byteWriteFold_pins (List.range 8) (b, s)
  exact ⟨evs, h1, by simpa using h2, h3, h4⟩

theorem ackLevel (env : Nat → Bool) (s : State) :
    dioLevel env
      (delayUs 100 (trisSet tm1637clkTrisBit (delayUs 100 (portClear tm1637dioTrisBit
        (trisSet tm1637dioTrisBit (portClear tm1637clkTrisBit
          (trisClear tm1637clkTrisBit s)))))))
      = env s.reads := by
  have d4 : Nat.testBit 16 4 = true := by decide
  simp [dioLevel, delayUs_tris, trisSet_tris, portClear_tris, trisClear_tris, delayUs_reads,
    trisSet_reads, portClear_reads, trisClear_reads, tm1637dioTrisBit, tm1637clkTrisBit, d4]

theorem byteWriteAck_pins (env : Nat → Bool) (s : State) :
    ∃ evs, (byteWriteAck env s).2.pins = s.pins ++ evs
      ∧ clockEdges s.TRISA evs = [true]
      ∧ PinEv.readDio (env s.reads) ∈ evs
      ∧ (byteWriteAck env s).1 = 1 := by
  have c5 : Nat.testBit 223 5 = false := by decide
  have c4 : Nat.testBit 239 4 = false := by decide
  have d5 : Nat.testBit 16 5 = false := by decide
  have d4 : Nat.testBit 16 4 = true := by decide
  have e5 : Nat.testBit 32 5 = true := by decide
  have e4 : Nat.testBit 32 4 = false := by decide
  have hl := ackLevel env s
  cases hlev : env s.reads
  · rw [hlev] at hl
    simp only [byteWriteAck, byteWriteAckEnd, hl, readDio_pins, delayUs_pins, trisSet_pins,
      portClear_pins, trisClear_pins, readDio_tris, delayUs_tris, trisSet_tris, portClear_tris,
      trisClear_tris, List.append_assoc, List.cons_append, List.nil_append, and_true,
      Bool.false_eq_true, if_false, if_true]
    refine ⟨_, rfl, ?_, ?_⟩
    · simp [clockEdges, tm1637clkTrisBit, tm1637dioTrisBit, c5, c4, d5, d4, e5, e4]
    · simp
  · rw [hlev] at hl
    simp only [byteWriteAck, byteWriteAckEnd, hl, readDio_pins, delayUs_pins, trisSet_pins,
      portClear_pins, trisClear_pins, readDio_tris, delayUs_tris, trisSet_tris, portClear_tris,
      trisClear_tris, List.append_assoc, List.cons_append, List.nil_append, and_true,
      if_true, one_ne_zero, if_false]
    refine ⟨_, rfl, ?_, ?_⟩
    · simp [clockEdges, tm1637clkTrisBit, tm1637dioTrisBit, c5, c4, d5, d4, e5, e4]
    · simp

theorem byteWrite_pins (env : Nat → Bool) (b : Nat) (s : State) :
    ∃ e1 e2, (byteWriteData b (logCall (BusOp.write b) s)).pins = s.pins ++ e1
      ∧ (tm1637ByteWrite env b s).2.pins = s.pins ++ (e1 ++ e2)
      ∧ clockEdges s.TRISA e1 = (List.range 8).map (fun i => b.testBit i)
      ∧ clockEdges s.TRISA (e1 ++ e2) = (List.range 8).map (fun i => b.testBit i) ++ [true]
      ∧ PinEv.readDio (env s.reads) ∈ e2
      ∧ (tm1637ByteWrite env b s).1 = 1 := by
  obtain ⟨e1, p1, c1, t1, r1⟩ := byteWriteData_pins b (logCall (BusOp.write b) s)
  obtain ⟨e2, p2, c2, m2, v2⟩ := byteWriteAck_pins env (byteWriteData b (logCall (BusOp.write b) s))
  rw [logCall_pins] at p1
  rw [logCall_tris] at c1 t1
  rw [logCall_reads] at r1
  refine ⟨e1, e2, p1, ?_, c1, ?_, ?_, v2⟩
  · unfold tm1637ByteWrite
    rw [p2, p1, List.append_assoc]
  · rw [clockEdges_append, c1, t1, c2]
  · rw [r1] at m2
    exact m2

/-! ### Byte transfer -/

/-- C9: `tm1637ByteWrite` sends the byte least significant bit first.  For every
byte `b < 256` and every state, the pin history of the data phase (the loop) has
exactly 8 rising clock edges, at the `i`-th of which the data line is released
(`TRISA` bit 4 set) iff bit `i` of `b` is 1 and driven low otherwise; the whole
call adds one more edge, the acknowledgment clock, with the data line released;
the 8 sampled levels decode, least significant first, to `b`. -/
theorem C9_byteWrite_lsb_first (env : Nat → Bool) (b : Nat) (hb : b < 256) (s : State) :
    clockEdges s.TRISA ((byteWriteData b (logCall (BusOp.write b) s)).pins.drop s.pins.length)
        = (List.range 8).map (fun i => b.testBit i)
    ∧ clockEdges s.TRISA ((tm1637ByteWrite env b s).2.pins.drop s.pins.length)
        = (List.range 8).map (fun i => b.testBit i) ++ [true]
    ∧ (∀ i, i < 8 →
        (clockEdges s.TRISA ((tm1637ByteWrite env b s).2.pins.drop s.pins.length))[i]?
          = some (b.testBit i))
    ∧ decodeLsbFirst
        ((clockEdges s.TRISA ((tm1637ByteWrite env b s).2.pins.drop s.pins.length)).take 8)
        = b := by
  obtain ⟨e1, e2, p1, p2, c1, c2, _, _⟩ := byteWrite_pins env b s
  rw [p1, p2, List.drop_left, List.drop_left, c1, c2]
  refine ⟨rfl, rfl, ?_, ?_⟩
  · intro i hi
    interval_cases i <;> rfl
  · have h := decode_testBit 8 b
    rw [Nat.mod_eq_of_lt (by omega : b < 2 ^ 8)] at h
    have ht : ((List.range 8).map (fun i => b.testBit i) ++ [true]).take 8
        = (List.range 8).map (fun i => b.testBit i) :=
      List.take_left' (by simp)
    rw [ht, h]

/-- Witness of C9: the command byte `0x40` from the initial state of the counter
build; the eight sampled levels decode to `0x40`. -/
theorem C9_byteWrite_lsb_first_witness :
    decodeLsbFirst
        ((clockEdges Counter.init.TRISA
          ((tm1637ByteWrite (fun _ => false) 0x40 Counter.init).2.pins.drop
            Counter.init.pins.length)).take 8)
      = 0x40 :=
  (C9_byteWrite_lsb_first (fun _ => false) 0x40 (by decide) Counter.init).2.2.2

/-- C10 (amended): `tm1637ByteWrite` returns 1 for every byte, every state and
every level of the data line at the acknowledgment clock; the call samples the
data line (the level the environment presents at that read), and the sample has
no effect on the returned value. -/
theorem C10_byteWrite_returns_one (env : Nat → Bool) (b : Nat) (s : State) :
    (tm1637ByteWrite env b s).1 = 1
    ∧ PinEv.readDio (env s.reads) ∈ (tm1637ByteWrite env b s).2.pins.drop s.pins.length := by
  obtain ⟨e1, e2, _, p2, _, _, m, v⟩ := byteWrite_pins env b s
  refine ⟨v, ?_⟩
  rw [p2, List.drop_left]
  exact List.mem_append_right e1 m

/-- C10 as stated fails: when the data line is sampled high at the acknowledgment
clock (no acknowledgment), the returned value is not 0. -/
theorem C10_counterexample :
    PinEv.readDio true ∈ (tm1637ByteWrite (fun _ => true) 0x40 Counter.init).2.pins
    ∧ (tm1637ByteWrite (fun _ => true) 0x40 Counter.init).1 ≠ 0 := by
  obtain ⟨e1, e2, _, p2, _, _, m, v⟩ := byteWrite_pins (fun _ => true) 0x40 Counter.init
  refine ⟨?_, by rw [v]; decide⟩
  rw [p2]
  exact List.mem_append_right _ (List.mem_append_right e1 m)

/-! ### Closed form of the rendering -/

theorem numToSeg_facts :
    ∀ x, x ≤ 9 → numToSeg x ≠ 0 ∧ (numToSeg x).testBit 7 = false
      ∧ numToSeg x ||| 0x80 ≠ numToSeg x ∧ numToSeg x ||| 0x80 ≠ 0 := by
  decide

theorem counter_renderSegs_closed (s : State) (a b c d : Nat)
    (hdata : s.tm1637Data = [a, b, c, d]) :
    Counter.renderSegs s
      = [if s.zeroBlanking ≠ 0 ∧ a = 0 then 0
         else if 0 = s.decimalPointPos then numToSeg a ||| 0x80 else numToSeg a,
         if s.zeroBlanking ≠ 0 ∧ a = 0 ∧ b = 0 then 0
         else if 1 = s.decimalPointPos then numToSeg b ||| 0x80 else numToSeg b,
         if s.zeroBlanking ≠ 0 ∧ a = 0 ∧ b = 0 ∧ c = 0 then 0
         else if 2 = s.decimalPointPos then numToSeg c ||| 0x80 else numToSeg c,
         if s.zeroBlanking ≠ 0 ∧ a = 0 ∧ b = 0 ∧ c = 0 ∧ d = 0 then numToSeg d
         else if 3 = s.decimalPointPos then numToSeg d ||| 0x80 else numToSeg d] := by
  rw [counter_renderSegs_four]
  simp only [Counter.digitSegs, stopBlankingInit, hdata, tm1637RightDigit, tm1637MaxDigits]
  by_cases hz : s.zeroBlanking = 0 <;> by_cases ha : a = 0 <;> by_cases hb : b = 0 <;>
    by_cases hc : c = 0 <;> by_cases hd : d = 0 <;> simp [hz, ha, hb, hc, hd]

theorem adc_renderSegs_closed (s : State) (a b c d : Nat)
    (hdata : s.tm1637Data = [a, b, c, d]) :
    ADC.renderSegs s
      = [if (0 : Int) > (s.numDisplayedDigits : Int) - 1 then 0
         else if s.zeroBlanking ≠ 0 ∧ a = 0 then 0
         else if 0 = s.decimalPointPos then numToSeg a ||| 0x80 else numToSeg a,
         if (1 : Int) > (s.numDisplayedDigits : Int) - 1 then 0
         else if s.zeroBlanking ≠ 0 ∧ a = 0 ∧ b = 0 then 0
         else if 1 = s.decimalPointPos then numToSeg b ||| 0x80 else numToSeg b,
         if (2 : Int) > (s.numDisplayedDigits : Int) - 1 then 0
         else if s.zeroBlanking ≠ 0 ∧ a = 0 ∧ b = 0 ∧ c = 0 then 0
         else if 2 = s.decimalPointPos then numToSeg c ||| 0x80 else numToSeg c,
         if (3 : Int) > (s.numDisplayedDigits : Int) - 1 then 0
         else if s.zeroBlanking ≠ 0 ∧ a = 0 ∧ b = 0 ∧ c = 0 ∧ d = 0 then numToSeg d
         else if 3 = s.decimalPointPos then numToSeg d ||| 0x80 else numToSeg d] := by
  rw [adc_renderSegs_four]
  simp only [ADC.digitSegs, stopBlankingInit, hdata, tm1637RightDigit, tm1637MaxDigits]
  by_cases hz : s.zeroBlanking = 0 <;> by_cases ha : a = 0 <;> by_cases hb : b = 0 <;>
    by_cases hc : c = 0 <;> by_cases hd : d = 0 <;> simp [hz, ha, hb, hc, hd]

theorem adc_renderSegs_unlimited (s : State) (hn : 4 ≤ s.numDisplayedDigits) :
    ADC.renderSegs s = Counter.renderSegs s := by
  rw [adc_renderSegs_four, counter_renderSegs_four]
  have g0 : ¬ ((0 : Int) > (s.numDisplayedDigits : Int) - 1) := by omega
  have g1 : ¬ ((1 : Int) > (s.numDisplayedDigits : Int) - 1) := by omega
  have g2 : ¬ ((2 : Int) > (s.numDisplayedDigits : Int) - 1) := by omega
  have g3 : ¬ ((3 : Int) > (s.numDisplayedDigits : Int) - 1) := by omega
  simp [ADC.digitSegs, Counter.digitSegs, g0, g1, g2, g3]

/-! ### Display on and off -/

theorem displayOn_calls (env : Nat → Bool) (s : State) :
    (tm1637DisplayOn env s).calls
      = s.calls ++ [BusOp.start, BusOp.write ((tm1637ByteSetOn + s.tm1637Brightness) % 256),
          BusOp.stop] := by
  have hb : (tm1637StartCondition s).tm1637Brightness = s.tm1637Brightness :=
    display_brightness s _ (start_display s)
  simp only [tm1637DisplayOn, stop_calls, byteWrite_calls, start_calls, hb, List.append_assoc,
    List.cons_append, List.nil_append]

theorem displayOff_calls (env : Nat → Bool) (s : State) :
    (tm1637DisplayOff env s).calls
      = s.calls ++ [BusOp.start, BusOp.write tm1637ByteSetOff, BusOp.stop] := by
  simp only [tm1637DisplayOff, stop_calls, byteWrite_calls, start_calls, List.append_assoc,
    List.cons_append, List.nil_append]

set_option maxRecDepth 100000 in
theorem onByte_facts :
    ∀ br, br ≤ 255 →
      (br ≤ 7 → (0x88 + br) % 256 = 0x88 ||| br ∧ 0x88 ≤ (0x88 + br) % 256
        ∧ (0x88 + br) % 256 ≤ 0x8F ∧ ((0x88 + br) % 256) >>> 3 = 0x11)
      ∧ (8 ≤ br → ((0x88 + br) % 256) >>> 3 ≠ 0x11) := by
  decide

/-- C11: the display-on command byte written by `tm1637DisplayOn` and, as the last
byte, by `tm1637UpdateDisplay` (both builds) is `(0x88 + brightness) mod 256`, with
no clamping.  For brightness 0..7 it equals `0x88 OR brightness`, lies in
`0x88..0x8F` and its upper five bits are `10001`; for brightness 8..255 its upper
five bits differ from `10001`. -/
theorem C11_display_on_byte (env : Nat → Bool) (s : State) (hbr : s.tm1637Brightness ≤ 255) :
    bytesWritten ((tm1637DisplayOn env s).calls.drop s.calls.length)
        = [(tm1637ByteSetOn + s.tm1637Brightness) % 256]
    ∧ (bytesWritten ((Counter.tm1637UpdateDisplay env s).calls.drop s.calls.length)).getLast?
        = some ((tm1637ByteSetOn + s.tm1637Brightness) % 256)
    ∧ (bytesWritten ((ADC.tm1637UpdateDisplay env s).calls.drop s.calls.length)).getLast?
        = some ((tm1637ByteSetOn + s.tm1637Brightness) % 256)
    ∧ (s.tm1637Brightness ≤ 7 →
        (tm1637ByteSetOn + s.tm1637Brightness) % 256 = 0x88 ||| s.tm1637Brightness
        ∧ 0x88 ≤ (tm1637ByteSetOn + s.tm1637Brightness) % 256
        ∧ (tm1637ByteSetOn + s.tm1637Brightness) % 256 ≤ 0x8F
        ∧ ((tm1637ByteSetOn + s.tm1637Brightness) % 256) >>> 3 = 0x11)
    ∧ (8 ≤ s.tm1637Brightness →
        ((tm1637ByteSetOn + s.tm1637Brightness) % 256) >>> 3 ≠ 0x11) := by
  refine ⟨?_, ?_, ?_, (onByte_facts _ hbr).1, (onByte_facts _ hbr).2⟩
  · rw [displayOn_calls, List.drop_left]
    rfl
  · rw [(counter_update_calls env s).1, List.drop_left, counter_renderSegs_four,
      bytesWritten_updateOps]
    rfl
  · rw [(adc_update_calls env s).1, List.drop_left, adc_renderSegs_four, bytesWritten_updateOps]
    rfl

/-- Witness of C11: brightness 5, the initial value in both builds, gives the
command byte `0x8D`. -/
theorem C11_display_on_byte_witness :
    bytesWritten ((tm1637DisplayOn (fun _ => false) Counter.init).calls.drop
        Counter.init.calls.length) = [0x8D] :=
  (C11_display_on_byte (fun _ => false) Counter.init (by decide)).1

/-- C16: `tm1637DisplayOn` issues exactly Start, Write (0x88 + brightness) mod 256,
Stop, and `tm1637DisplayOff` issues exactly Start, Write 0x80, Stop, for every
brightness and buffer content: one bracketed group with a single byte each. -/
theorem C16_display_power_operations (env : Nat → Bool) (s : State) :
    (tm1637DisplayOn env s).calls
        = s.calls ++ [BusOp.start, BusOp.write ((0x88 + s.tm1637Brightness) % 256), BusOp.stop]
    ∧ (tm1637DisplayOff env s).calls
        = s.calls ++ [BusOp.start, BusOp.write 0x80, BusOp.stop] :=
  ⟨displayOn_calls env s, displayOff_calls env s⟩

/-! ### Blanking -/

theorem dpSeg_ne_zero (k dp x : Nat) (hx : x ≤ 9) :
    (if k = dp then numToSeg x ||| 0x80 else numToSeg x) ≠ 0 := by
  split
  · exact (numToSeg_facts x hx).2.2.2
  · exact (numToSeg_facts x hx).1

/-- C12: blanking stops at the first non-zero digit.  For every zero blanking
setting, decimal point position and buffer `[a, b, c, d]` of digits 0..9, with all
four digits displayed, if the digit at position `j` is non-zero then every position
`i ≥ j` is sent as `SegmentTable[digit i]` (`OR 0x80` when `i = decimalPointPos`) and
not as the blank byte `0x00`, also when digit `i` is zero (both builds). -/
theorem C12_blanking_stops_at_nonzero (env : Nat → Bool) (s : State) (a b c d : Nat)
    (ha : a ≤ 9) (hb : b ≤ 9) (hc : c ≤ 9) (hd : d ≤ 9)
    (hdata : s.tm1637Data = [a, b, c, d]) (hn : 4 ≤ s.numDisplayedDigits)
    (j i : Nat) (hj : [a, b, c, d].getD j 0 ≠ 0) (hji : j ≤ i) (hi : i < 4) :
    (Counter.segmentBytes env s)[i]?
        = some (if i = s.decimalPointPos then numToSeg ([a, b, c, d].getD i 0) ||| 0x80
                else numToSeg ([a, b, c, d].getD i 0))
    ∧ (Counter.segmentBytes env s)[i]? ≠ some 0x00
    ∧ (ADC.segmentBytes env s)[i]?
        = some (if i = s.decimalPointPos then numToSeg ([a, b, c, d].getD i 0) ||| 0x80
                else numToSeg ([a, b, c, d].getD i 0))
    ∧ (ADC.segmentBytes env s)[i]? ≠ some 0x00 := by
  rw [adc_segmentBytes_eq, adc_renderSegs_unlimited s hn, counter_segmentBytes_eq,
    counter_renderSegs_closed s a b c d hdata]
  have na := dpSeg_ne_zero 0 s.decimalPointPos a ha
  have nb := dpSeg_ne_zero 1 s.decimalPointPos b hb
  have nc := dpSeg_ne_zero 2 s.decimalPointPos c hc
  have nd := dpSeg_ne_zero 3 s.decimalPointPos d hd
  interval_cases i <;> interval_cases j <;> simp at hj <;> simp [hj, na, nb, nc, nd]

/-- Witness of C12: the buffer `[0, 5, 0, 0]` with zero blanking on; position 2
holds a zero right of the non-zero digit at position 1 and is sent as `0x3F`. -/
theorem C12_blanking_stops_at_nonzero_witness :
    (Counter.segmentBytes (fun _ => false)
        { Counter.init with tm1637Data := [0, 5, 0, 0], numDisplayedDigits := 4 })[2]?
      = some (if 2 = 99 then numToSeg 0 ||| 0x80 else numToSeg 0) :=
  (C12_blanking_stops_at_nonzero (fun _ => false)
    { Counter.init with tm1637Data := [0, 5, 0, 0], numDisplayedDigits := 4 } 0 5 0 0
    (by decide) (by decide) (by decide) (by decide) rfl (by decide) 1 2 (by decide)
    (by decide) (by decide)).1

/-- C13: zero blanking as the source documents it.  With the zero blanking flag
non-zero, `decimalPointPos ≥ 4` and all four digits displayed, for every buffer of
digits 0..9 the byte sent for position `i` is `0x00` exactly when `i < 3` and the
digits at positions 0..i are all zero, and is `SegmentTable[digit i]` otherwise (the
value 0 is sent as blank, blank, blank, `0x3F`); with the flag 0 every position is
sent as `SegmentTable[digit i]` (both builds). -/
theorem C13_zero_blanking_documented (env : Nat → Bool) (s : State) (a b c d : Nat)
    (ha : a ≤ 9) (hb : b ≤ 9) (hc : c ≤ 9) (hd : d ≤ 9)
    (hdata : s.tm1637Data = [a, b, c, d]) (hdp : 4 ≤ s.decimalPointPos)
    (hn : 4 ≤ s.numDisplayedDigits) (i : Nat) (hi : i < 4) :
    (s.zeroBlanking ≠ 0 →
      ((Counter.segmentBytes env s)[i]? = some 0x00
          ↔ (i < 3 ∧ ∀ x ∈ [a, b, c, d].take (i + 1), x = 0))
      ∧ (¬ (i < 3 ∧ ∀ x ∈ [a, b, c, d].take (i + 1), x = 0) →
          (Counter.segmentBytes env s)[i]? = some (numToSeg ([a, b, c, d].getD i 0)))
      ∧ ((ADC.segmentBytes env s)[i]? = some 0x00
          ↔ (i < 3 ∧ ∀ x ∈ [a, b, c, d].take (i + 1), x = 0))
      ∧ (¬ (i < 3 ∧ ∀ x ∈ [a, b, c, d].take (i + 1), x = 0) →
          (ADC.segmentBytes env s)[i]? = some (numToSeg ([a, b, c, d].getD i 0)))
      ∧ (a = 0 → b = 0 → c = 0 → d = 0 →
          Counter.segmentBytes env s = [0x00, 0x00, 0x00, 0x3F]
          ∧ ADC.segmentBytes env s = [0x00, 0x00, 0x00, 0x3F]))
    ∧ (s.zeroBlanking = 0 →
      (Counter.segmentBytes env s)[i]? = some (numToSeg ([a, b, c, d].getD i 0))
      ∧ (ADC.segmentBytes env s)[i]? = some (numToSeg ([a, b, c, d].getD i 0))) := by
  rw [adc_segmentBytes_eq, adc_renderSegs_unlimited s hn, counter_segmentBytes_eq,
    counter_renderSegs_closed s a b c d hdata]
  have h0 : ¬ (0 = s.decimalPointPos) := by omega
  have h1 : ¬ (1 = s.decimalPointPos) := by omega
  have h2 : ¬ (2 = s.decimalPointPos) := by omega
  have h3 : ¬ (3 = s.decimalPointPos) := by omega
  have na := (numToSeg_facts a ha).1
  have nb := (numToSeg_facts b hb).1
  have nc := (numToSeg_facts c hc).1
  have nd := (numToSeg_facts d hd).1
  have n0 : numToSeg 0 = 0x3F := rfl
  simp only [h0, h1, h2, h3, if_false]
  constructor
  · intro hz
    interval_cases i <;> simp [hz, na, nb, nc, nd] <;> (try constructor) <;> intros <;>
      simp_all
  · intro hz
    interval_cases i <;> simp [hz]

/-- Witness of C13: the value 0 with zero blanking on, in the counter build's
initial configuration, is sent as blank, blank, blank, `0x3F`. -/
theorem C13_zero_blanking_documented_witness :
    Counter.segmentBytes (fun _ => false) { Counter.init with numDisplayedDigits := 4 }
      = [0x00, 0x00, 0x00, 0x3F] :=
  (((C13_zero_blanking_documented (fun _ => false)
    { Counter.init with numDisplayedDigits := 4 } 0 0 0 0
    (by decide) (by decide) (by decide) (by decide) rfl (by decide) (by decide) 0
    (by decide)).1 (by decide)).2.2.2.2 rfl rfl rfl rfl).1

/-- C18: for every buffer of digits 0..9 and every configuration, the segment
byte sent for position `i` (both builds) is one of `0x00`, `SegmentTable[digit i]`
and `SegmentTable[digit i] OR 0x80`; the third form occurs only when
`i = decimalPointPos`; hence with `decimalPointPos ≥ 4` no segment byte sent has
bit 7 set. -/
theorem C18_segment_byte_forms (env : Nat → Bool) (s : State) (a b c d : Nat)
    (ha : a ≤ 9) (hb : b ≤ 9) (hc : c ≤ 9) (hd : d ≤ 9)
    (hdata : s.tm1637Data = [a, b, c, d]) (i : Nat) (hi : i < 4) :
    ((Counter.segmentBytes env s)[i]? = some 0x00
        ∨ (Counter.segmentBytes env s)[i]? = some (numToSeg ([a, b, c, d].getD i 0))
        ∨ (Counter.segmentBytes env s)[i]? = some (numToSeg ([a, b, c, d].getD i 0) ||| 0x80))
    ∧ ((Counter.segmentBytes env s)[i]? = some (numToSeg ([a, b, c, d].getD i 0) ||| 0x80) →
        i = s.decimalPointPos)
    ∧ (4 ≤ s.decimalPointPos →
        ∀ x, (Counter.segmentBytes env s)[i]? = some x → x.testBit 7 = false)
    ∧ ((ADC.segmentBytes env s)[i]? = some 0x00
        ∨ (ADC.segmentBytes env s)[i]? = some (numToSeg ([a, b, c, d].getD i 0))
        ∨ (ADC.segmentBytes env s)[i]? = some (numToSeg ([a, b, c, d].getD i 0) ||| 0x80))
    ∧ ((ADC.segmentBytes env s)[i]? = some (numToSeg ([a, b, c, d].getD i 0) ||| 0x80) →
        i = s.decimalPointPos)
    ∧ (4 ≤ s.decimalPointPos →
        ∀ x, (ADC.segmentBytes env s)[i]? = some x → x.testBit 7 = false) := by
  rw [adc_segmentBytes_eq, adc_renderSegs_closed s a b c d hdata, counter_segmentBytes_eq,
    counter_renderSegs_closed s a b c d hdata]
  obtain ⟨a1, a2, a3, a4⟩ := numToSeg_facts a ha
  obtain ⟨b1, b2, b3, b4⟩ := numToSeg_facts b hb
  obtain ⟨c1, c2, c3, c4⟩ := numToSeg_facts c hc
  obtain ⟨d1, d2, d3, d4⟩ := numToSeg_facts d hd
  have z7 : Nat.testBit 0 7 = false := by decide
  interval_cases i
  all_goals simp only [List.getElem?_cons_zero, List.getElem?_cons_succ, List.getD_cons_zero,
    List.getD_cons_succ, Option.some.injEq]
  all_goals refine ⟨?_, ?_, ?_, ?_, ?_, ?_⟩
  all_goals split_ifs
  all_goals first
    | omega
    | simp_all

/-- Witness of C18: position 1 of the buffer `[1, 2, 3, 4]` with the decimal point
at position 1: the byte sent is `SegmentTable[2] OR 0x80`, the third form. -/
theorem C18_segment_byte_forms_witness :
    (Counter.segmentBytes (fun _ => false)
        { Counter.init with tm1637Data := [1, 2, 3, 4], decimalPointPos := 1 })[1]? = some 0x00
    ∨ (Counter.segmentBytes (fun _ => false)
        { Counter.init with tm1637Data := [1, 2, 3, 4], decimalPointPos := 1 })[1]?
        = some (numToSeg ([1, 2, 3, 4].getD 1 0))
    ∨ (Counter.segmentBytes (fun _ => false)
        { Counter.init with tm1637Data := [1, 2, 3, 4], decimalPointPos := 1 })[1]?
        = some (numToSeg ([1, 2, 3, 4].getD 1 0) ||| 0x80) :=
  (C18_segment_byte_forms (fun _ => false)
    { Counter.init with tm1637Data := [1, 2, 3, 4], decimalPointPos := 1 } 1 2 3 4
    (by decide) (by decide) (by decide) (by decide) rfl 1 (by decide)).1

/-! ### Start and stop conditions -/

theorem trisClear_porta (bit : Nat) (s : State) : (trisClear bit s).PORTA = s.PORTA := rfl

theorem trisSet_porta (bit : Nat) (s : State) : (trisSet bit s).PORTA = s.PORTA := rfl

theorem delayUs_porta (n : Nat) (s : State) : (delayUs n s).PORTA = s.PORTA := rfl

theorem logCall_porta (op : BusOp) (s : State) : (logCall op s).PORTA = s.PORTA := rfl

theorem start_pins (s : State) :
    (tm1637StartCondition s).pins
      = s.pins ++ [PinEv.tris (s.TRISA &&& 0xEF), PinEv.port (s.PORTA &&& 0xEF),
          PinEv.delayUs 100] := by
  simp only [tm1637StartCondition, delayUs_pins, portClear_pins, trisClear_pins, logCall_pins,
    trisClear_porta, logCall_porta, logCall_tris, tm1637dioTrisBit, List.append_assoc,
    List.cons_append, List.nil_append]
  rfl

theorem start_tris (s : State) : (tm1637StartCondition s).TRISA = s.TRISA &&& 0xEF := by
  simp only [tm1637StartCondition, delayUs_tris, portClear_tris, trisClear_tris, logCall_tris,
    tm1637dioTrisBit]
  rfl

theorem stop_pins (s : State) :
    (tm1637StopCondition s).pins
      = s.pins ++ [PinEv.tris (s.TRISA &&& 0xEF), PinEv.port (s.PORTA &&& 0xEF),
          PinEv.delayUs 100, PinEv.tris ((s.TRISA &&& 0xEF) ||| 0x20), PinEv.delayUs 100,
          PinEv.tris (((s.TRISA &&& 0xEF) ||| 0x20) ||| 0x10), PinEv.delayUs 100] := by
  simp only [tm1637StopCondition, delayUs_pins, portClear_pins, trisClear_pins, trisSet_pins,
    logCall_pins, trisClear_porta, logCall_porta, logCall_tris, delayUs_tris, portClear_tris,
    trisClear_tris, trisSet_tris, tm1637dioTrisBit, tm1637clkTrisBit, List.append_assoc,
    List.cons_append, List.nil_append]
  rfl

theorem stop_tris (s : State) :
    (tm1637StopCondition s).TRISA = ((s.TRISA &&& 0xEF) ||| 0x20) ||| 0x10 := by
  simp only [tm1637StopCondition, delayUs_tris, portClear_tris, trisClear_tris, trisSet_tris,
    logCall_tris, tm1637dioTrisBit, tm1637clkTrisBit]
  rfl

theorem mask_bits :
    ∀ j, j < 8 → j ≠ 4 → j ≠ 5 →
      Nat.testBit 0xEF j = true ∧ Nat.testBit 0x20 j = false ∧ Nat.testBit 0x10 j = false := by
  decide

/-- C14: from every pin state, `tm1637StopCondition` performs in order: drive data
low (`TRISA` bit 4 and the latch bit cleared), delay 100 us, release clock (`TRISA`
bit 5 set), delay 100 us, release data (`TRISA` bit 4 set), delay 100 us; on return
both lines are released and no other bit of the 8 bit register `TRISA` has
changed. -/
theorem C14_stop_condition_sequence (s : State) :
    (tm1637StopCondition s).pins
        = s.pins ++ [PinEv.tris (s.TRISA &&& 0xEF), PinEv.port (s.PORTA &&& 0xEF),
            PinEv.delayUs 100, PinEv.tris ((s.TRISA &&& 0xEF) ||| 0x20), PinEv.delayUs 100,
            PinEv.tris (((s.TRISA &&& 0xEF) ||| 0x20) ||| 0x10), PinEv.delayUs 100]
    ∧ (s.TRISA &&& 0xEF).testBit tm1637dioTrisBit = false
    ∧ (s.PORTA &&& 0xEF).testBit tm1637dioTrisBit = false
    ∧ ((s.TRISA &&& 0xEF) ||| 0x20).testBit tm1637clkTrisBit = true
    ∧ ((s.TRISA &&& 0xEF) ||| 0x20).testBit tm1637dioTrisBit = false
    ∧ (tm1637StopCondition s).TRISA = ((s.TRISA &&& 0xEF) ||| 0x20) ||| 0x10
    ∧ (tm1637StopCondition s).TRISA.testBit tm1637dioTrisBit = true
    ∧ (tm1637StopCondition s).TRISA.testBit tm1637clkTrisBit = true
    ∧ (∀ j, j < 8 → j ≠ tm1637dioTrisBit → j ≠ tm1637clkTrisBit →
        (tm1637StopCondition s).TRISA.testBit j = s.TRISA.testBit j) := by
  have c4 : Nat.testBit 239 4 = false := by decide
  have d5 : Nat.testBit 16 5 = false := by decide
  have d4 : Nat.testBit 16 4 = true := by decide
  have e5 : Nat.testBit 32 5 = true := by decide
  have e4 : Nat.testBit 32 4 = false := by decide
  refine ⟨stop_pins s, ?_, ?_, ?_, ?_, stop_tris s, ?_, ?_, ?_⟩
  · simp [tm1637dioTrisBit, c4]
  · simp [tm1637dioTrisBit, c4]
  · simp [tm1637clkTrisBit, e5]
  · simp [tm1637dioTrisBit, c4, e4]
  · simp [stop_tris, tm1637dioTrisBit, d4]
  · simp [stop_tris, tm1637clkTrisBit, e5]
  · intro j hj h4 h5
    obtain ⟨m1, m2, m3⟩ := mask_bits j hj h4 h5
    simp only [stop_tris, Nat.testBit_or, Nat.testBit_and, m1, m2, m3, Bool.and_true,
      Bool.or_false]

/-- Witness of C14: bit 0 of `TRISA` (an analogue input of the ADC build) is left
as it was by a stop condition from the initial state of the ADC build. -/
theorem C14_stop_condition_sequence_witness :
    (tm1637StopCondition ADC.init).TRISA.testBit 0 = ADC.init.TRISA.testBit 0 :=
  (C14_stop_condition_sequence ADC.init).2.2.2.2.2.2.2.2 0 (by decide) (by decide) (by decide)

/-! ### The digit invariant -/

theorem roundDigits_closed (a b c d : Nat) (ha : a ≤ 9) (hb : b ≤ 9) (hc : c ≤ 9)
    (hd : d ≤ 9) (s : State) (h : s.tm1637Data = [a, b, c, d]) :
    (ADC.roundDigits s).tm1637Data
      = digits4 (10 * ((1000 * a + 100 * b + 10 * c + d + 4) / 10) % 10000) := by
  rw [roundDigits_data a b c d s h]
  simp only [digits4]
  by_cases h5 : d > 5
  · rw [if_pos h5, roundCarry_two _ _ _ _ _ (by omega)]
    by_cases h2 : c + 1 > 9
    · rw [if_pos h2, roundCarry_one _ _ _ _ _ (by omega)]
      by_cases h1 : b + 1 > 9
      · rw [if_pos h1, roundCarry_zero _ _ _ _ _ (by omega)]
        by_cases h0 : a + 1 > 9
        · rw [if_pos h0]; simp only [List.cons.injEq, and_true]; omega
        · rw [if_neg h0]; simp only [List.cons.injEq, and_true]; omega
      · rw [if_neg h1, roundCarry_zero _ _ _ _ _ (by omega), if_neg (by omega)]
        simp only [List.cons.injEq, and_true]; omega
    · rw [if_neg h2, roundCarry_one _ _ _ _ _ (by omega), if_neg (by omega),
        roundCarry_zero _ _ _ _ _ (by omega), if_neg (by omega)]
      simp only [List.cons.injEq, and_true]; omega
  · rw [if_neg h5, roundCarry_two _ _ _ _ _ (by omega), if_neg (by omega),
      roundCarry_one _ _ _ _ _ (by omega), if_neg (by omega),
      roundCarry_zero _ _ _ _ _ (by omega), if_neg (by omega)]
    simp only [List.cons.injEq, and_true]; omega

theorem validDigits_digits4 (n : Nat) : validDigits (digits4 n) := by
  refine ⟨rfl, ?_⟩
  intro x hx
  simp only [digits4, List.mem_cons, List.mem_singleton, List.not_mem_nil, or_false] at hx
  omega

theorem validDigits_cases (data : List Nat) (h : validDigits data) :
    ∃ a b c d, data = [a, b, c, d] ∧ a ≤ 9 ∧ b ≤ 9 ∧ c ≤ 9 ∧ d ≤ 9 := by
  obtain ⟨hlen, hall⟩ := h
  match data, hlen, hall with
  | [a, b, c, d], _, hall =>
    exact ⟨a, b, c, d, rfl, hall a (by simp), hall b (by simp), hall c (by simp),
      hall d (by simp)⟩

theorem display_data (s t : State) (h : display t = display s) :
    t.tm1637Data = s.tm1637Data := by
  simp only [display, Prod.mk.injEq] at h
  exact h.1

/-- C17: the predicate `all four tm1637Data entries are in 0..9` is an invariant of
the display state.  It holds for the initial buffer, holds after `getDigits v` for
every 16 bit `v` whatever the prior four entry buffer was, and is preserved by
`roundDigits` and by `tm1637UpdateDisplay` (which leaves the buffer as it is);
under it every index `tm1637Data[ctr]`, `ctr < 4`, used to look up the segment
table lies inside the 10 entry table. -/
theorem C17_digit_invariant (env : Nat → Bool) (s : State) :
    validDigits Counter.init.tm1637Data
    ∧ validDigits ADC.init.tm1637Data
    ∧ (∀ v, v ≤ 65535 → s.tm1637Data.length = 4 →
        validDigits (Counter.getDigits v s).2.tm1637Data
        ∧ validDigits (ADC.getDigits v s).2.tm1637Data)
    ∧ (validDigits s.tm1637Data → validDigits (ADC.roundDigits s).tm1637Data)
    ∧ (validDigits s.tm1637Data →
        (Counter.tm1637UpdateDisplay env s).tm1637Data = s.tm1637Data
        ∧ validDigits (Counter.tm1637UpdateDisplay env s).tm1637Data
        ∧ (ADC.tm1637UpdateDisplay env s).tm1637Data = s.tm1637Data
        ∧ validDigits (ADC.tm1637UpdateDisplay env s).tm1637Data)
    ∧ (validDigits s.tm1637Data →
        ∀ ctr, ctr < tm1637MaxDigits →
          s.tm1637Data.getD ctr 0 < tm1637DisplayNumtoSeg.length) := by
  refine ⟨by decide, by decide, ?_, ?_, ?_, ?_⟩
  · intro v _ hlen
    rw [counter_getDigits_data v s hlen, adc_getDigits_data v s hlen]
    exact ⟨validDigits_digits4 v, validDigits_digits4 v⟩
  · intro h
    obtain ⟨a, b, c, d, hdata, ha, hb, hc, hd⟩ := validDigits_cases _ h
    rw [roundDigits_closed a b c d ha hb hc hd s hdata]
    exact validDigits_digits4 _
  · intro h
    have e1 := display_data s _ (counter_update_calls env s).2
    have e2 := display_data s _ (adc_update_calls env s).2
    rw [e1, e2]
    exact ⟨rfl, h, rfl, h⟩
  · intro h ctr hctr
    obtain ⟨a, b, c, d, hdata, ha, hb, hc, hd⟩ := validDigits_cases _ h
    rw [hdata]
    have hl : tm1637DisplayNumtoSeg.length = 10 := rfl
    rw [hl]
    simp only [tm1637MaxDigits] at hctr
    interval_cases ctr <;> simp <;> omega

/-- Witness of C17: from the initial state of the ADC build, the value 4092 (the
largest reading) is extracted to a buffer of decimal digits. -/
theorem C17_digit_invariant_witness :
    validDigits (ADC.getDigits 4092 ADC.init).2.tm1637Data :=
  ((C17_digit_invariant (fun _ => false) ADC.init).2.2.1 4092 (by decide) (by decide)).2

/-! ### Repeated rounding -/

theorem roundDigits_twice (a b c d : Nat) (ha : a ≤ 9) (hb : b ≤ 9) (hc : c ≤ 9)
    (hd : d ≤ 9) (s : State) (h : s.tm1637Data = [a, b, c, d]) :
    (ADC.roundDigits (ADC.roundDigits s)).tm1637Data = (ADC.roundDigits s).tm1637Data := by
  have h1 := roundDigits_closed a b c d ha hb hc hd s h
  generalize hm : 10 * ((1000 * a + 100 * b + 10 * c + d + 4) / 10) % 10000 = m at h1
  have hm10 : m % 10 = 0 := by omega
  have hlt : m < 10000 := by omega
  simp only [digits4] at h1
  rw [roundDigits_closed (m / 1000 % 10) (m / 100 % 10) (m / 10 % 10) (m % 10)
    (by omega) (by omega) (by omega) (by omega) (ADC.roundDigits s) h1, h1]
  simp only [digits4, List.cons.injEq, and_true]
  omega

/-- C20 (amended): repeated calls of `roundDigits` do not over-round.  For every
buffer of digits 0..9, applying `roundDigits` twice gives the same buffer as
applying it once: the first call leaves the rightmost digit 0, so the second
call adds no carry. -/
theorem C20_roundDigits_idempotent (a b c d : Nat) (ha : a ≤ 9) (hb : b ≤ 9) (hc : c ≤ 9)
    (hd : d ≤ 9) (s : State) (h : s.tm1637Data = [a, b, c, d]) :
    (ADC.roundDigits (ADC.roundDigits s)).tm1637Data = (ADC.roundDigits s).tm1637Data
    ∧ (ADC.roundDigits s).tm1637Data.getD 3 1 = 0 := by
  refine ⟨roundDigits_twice a b c d ha hb hc hd s h, ?_⟩
  rw [roundDigits_closed a b c d ha hb hc hd s h]
  simp only [digits4, List.getD_cons_succ, List.getD_cons_zero]
  omega

/-- Witness of C20 (amended): the buffer `[0, 0, 1, 6]` of the specification. -/
theorem C20_roundDigits_idempotent_witness :
    (ADC.roundDigits (ADC.roundDigits { ADC.init with tm1637Data := [0, 0, 1, 6] })).tm1637Data
      = (ADC.roundDigits { ADC.init with tm1637Data := [0, 0, 1, 6] }).tm1637Data :=
  (C20_roundDigits_idempotent 0 0 1 6 (by decide) (by decide) (by decide) (by decide)
    { ADC.init with tm1637Data := [0, 0, 1, 6] } rfl).1

/-- C20 as stated fails: there is no buffer of digits 0..9 on which applying
`roundDigits` twice gives a different buffer from applying it once. -/
theorem C20_counterexample :
    ¬ ∃ (a b c d : Nat) (s : State), a ≤ 9 ∧ b ≤ 9 ∧ c ≤ 9 ∧ d ≤ 9
        ∧ s.tm1637Data = [a, b, c, d]
        ∧ (ADC.roundDigits (ADC.roundDigits s)).tm1637Data ≠ (ADC.roundDigits s).tm1637Data := by
  rintro ⟨a, b, c, d, s, ha, hb, hc, hd, h, hne⟩
  exact hne (roundDigits_twice a b c d ha hb hc hd s h)

/-! ### Display functions as sequences of bus primitives -/

theorem runOps_append (env : Nat → Bool) (l1 l2 : List BusOp) :
    ∀ s : State, runOps env (l1 ++ l2) s = runOps env l2 (runOps env l1 s) := by
  induction l1 with
  | nil => intro s; rfl
  | cons op rest ih => intro s; exact ih (runOp env op s)

theorem counter_updateFold_run (env : Nat → Bool) (s : State) (l : List Nat) :
    ∀ (sb : Nat) (t : State), display t = display s →
      (l.foldl (Counter.updateStep env) (sb, t)).2
        = runOps env ((Counter.renderFrom s sb l).map BusOp.write) t := by
  induction l with
  | nil => intro sb t _; rfl
  | cons ctr rest ih =>
    intro sb t h
    rw [List.foldl_cons]
    have hw := byteWrite_display env (Counter.digitSegs t sb ctr).1 t
    have h1 := ih (Counter.digitSegs t sb ctr).2
      (tm1637ByteWrite env (Counter.digitSegs t sb ctr).1 t).2 (hw.trans h)
    simp only [Counter.updateStep]
    rw [h1, counter_digitSegs_congr s t h]
    rfl

theorem counter_update_run (env : Nat → Bool) (s : State) :
    Counter.tm1637UpdateDisplay env s
      = runOps env (updateOps (Counter.renderSegs s) s.tm1637Brightness) s := by
  have hd : display (tm1637ByteWrite env tm1637ByteSetAddr (tm1637StartCondition
      (tm1637StopCondition (tm1637ByteWrite env tm1637ByteSetData
        (tm1637StartCondition s)).2))).2 = display s := by
    simp only [byteWrite_display, start_display, stop_display]
  have a3 := counter_updateFold_run env s (List.range tm1637MaxDigits) (stopBlankingInit s) _ hd
  have a3d := (counter_updateFold env s (List.range tm1637MaxDigits) (stopBlankingInit s) _ hd).2
  have hb2 : (tm1637StartCondition (tm1637StopCondition
      ((List.range tm1637MaxDigits).foldl (Counter.updateStep env) (stopBlankingInit s,
        (tm1637ByteWrite env tm1637ByteSetAddr (tm1637StartCondition
          (tm1637StopCondition (tm1637ByteWrite env tm1637ByteSetData
            (tm1637StartCondition s)).2))).2)).2)).tm1637Brightness = s.tm1637Brightness :=
    display_brightness s _ ((start_display _).trans ((stop_display _).trans a3d))
  simp only [Counter.tm1637UpdateDisplay, hb2]
  rw [a3]
  simp only [updateOps, runOps_append, Counter.renderSegs]
  rfl

theorem displayOn_run (env : Nat → Bool) (s : State) :
    tm1637DisplayOn env s
      = runOps env [BusOp.start,
          BusOp.write ((tm1637ByteSetOn + s.tm1637Brightness) % 256), BusOp.stop] s := by
  have hb : (tm1637StartCondition s).tm1637Brightness = s.tm1637Brightness :=
    display_brightness s _ (start_display s)
  simp only [tm1637DisplayOn, hb]
  rfl

theorem displayOff_run (env : Nat → Bool) (s : State) :
    tm1637DisplayOff env s
      = runOps env [BusOp.start, BusOp.write tm1637ByteSetOff, BusOp.stop] s := rfl

theorem counter_runCall_eq (env : Nat → Bool) (c : DisplayCall) (s : State) :
    Counter.runCall env c s = runOps env (Counter.callOps s c) s := by
  cases c with
  | update => exact counter_update_run env s
  | switchOn => exact displayOn_run env s
  | switchOff => exact displayOff_run env s

theorem startPair_ok (t : State) (h : t.TRISA.testBit tm1637clkTrisBit = true) :
    t.TRISA.testBit tm1637clkTrisBit = true
    ∧ (tm1637StartCondition t).TRISA.testBit tm1637clkTrisBit = true
    ∧ (tm1637StartCondition t).TRISA.testBit tm1637dioTrisBit = false := by
  have c4 : Nat.testBit 239 4 = false := by decide
  have c5 : Nat.testBit 239 5 = true := by decide
  simp only [tm1637clkTrisBit] at h
  simp [start_tris, tm1637clkTrisBit, tm1637dioTrisBit, c4, c5, h]

theorem stop_released (t : State) : linesReleased (tm1637StopCondition t) := by
  have d4 : Nat.testBit 16 4 = true := by decide
  have e5 : Nat.testBit 32 5 = true := by decide
  simp [linesReleased, stop_tris, tm1637clkTrisBit, tm1637dioTrisBit, d4, e5]

theorem startCalls_group (env : Nat → Bool) (b : Nat) (s : State)
    (h : s.TRISA.testBit tm1637clkTrisBit = true) :
    ∀ p ∈ startCalls env [BusOp.start, BusOp.write b, BusOp.stop] s,
      p.1.testBit tm1637clkTrisBit = true ∧ p.2.testBit tm1637clkTrisBit = true
      ∧ p.2.testBit tm1637dioTrisBit = false := by
  intro p hp
  simp only [startCalls, List.mem_singleton] at hp
  subst hp
  exact startPair_ok s h

theorem startCalls_update (env : Nat → Bool) (a b c d br : Nat) (s : State)
    (h : s.TRISA.testBit tm1637clkTrisBit = true) :
    ∀ p ∈ startCalls env (updateOps [a, b, c, d] br) s,
      p.1.testBit tm1637clkTrisBit = true ∧ p.2.testBit tm1637clkTrisBit = true
      ∧ p.2.testBit tm1637dioTrisBit = false := by
  intro p hp
  simp only [updateOps, List.map, List.cons_append, List.nil_append, startCalls, runOp,
    List.mem_cons, List.mem_singleton, List.not_mem_nil, or_false] at hp
  rcases hp with rfl | rfl | rfl
  · exact startPair_ok s h
  · exact startPair_ok _ (stop_released _).2
  · exact startPair_ok _ (stop_released _).2

theorem counter_runCall_released (env : Nat → Bool) (c : DisplayCall) (t : State) :
    linesReleased (Counter.runCall env c t) := by
  cases c with
  | update => exact stop_released _
  | switchOn => exact stop_released _
  | switchOff => exact stop_released _

theorem counter_startCallsOf_ok (env : Nat → Bool) (cs : List DisplayCall) :
    ∀ s : State, linesReleased s →
      ∀ p ∈ Counter.startCallsOf env cs s,
        p.1.testBit tm1637clkTrisBit = true ∧ p.2.testBit tm1637clkTrisBit = true
        ∧ p.2.testBit tm1637dioTrisBit = false := by
  induction cs with
  | nil => intro s _ p hp; simp [Counter.startCallsOf] at hp
  | cons c rest ih =>
    intro s hs p hp
    simp only [Counter.startCallsOf, List.mem_append] at hp
    rcases hp with hp | hp
    · cases c with
      | update =>
        simp only [Counter.callOps, counter_renderSegs_four] at hp
        exact startCalls_update env _ _ _ _ _ s hs.2 p hp
      | switchOn => exact startCalls_group env _ s hs.2 p hp
      | switchOff => exact startCalls_group env _ s hs.2 p hp
    · exact ih _ (counter_runCall_released env c s) p hp

theorem counter_runCalls_released (env : Nat → Bool) (cs : List DisplayCall) :
    ∀ s : State, linesReleased s → linesReleased (Counter.runCalls env cs s) := by
  induction cs with
  | nil => intro s hs; exact hs
  | cons c rest ih => intro s _; exact ih _ (counter_runCall_released env c s)

/-- C15: starting from a state with both lines released (`TRISA` bits 4 and 5 set,
as `initialise` leaves them), in every sequence of calls of `tm1637UpdateDisplay`,
`tm1637DisplayOn` and `tm1637DisplayOff` (counter build) each call of
`tm1637StartCondition` is entered with the clock line released and returns with
the clock still released and the data line driven low, and each of the three
display functions returns with both lines released.  Each display function is the
sequence of bus primitives listed by `Counter.callOps`. -/
theorem C15_start_entered_with_clock_released (env : Nat → Bool) (s : State)
    (hs : linesReleased s) (cs : List DisplayCall) :
    linesReleased Counter.init
    ∧ (∀ c t, Counter.runCall env c t = runOps env (Counter.callOps t c) t)
    ∧ (∀ p ∈ Counter.startCallsOf env cs s,
        p.1.testBit tm1637clkTrisBit = true ∧ p.2.testBit tm1637clkTrisBit = true
        ∧ p.2.testBit tm1637dioTrisBit = false)
    ∧ (∀ c t, linesReleased (Counter.runCall env c t))
    ∧ linesReleased (Counter.runCalls env cs s) :=
  ⟨by decide, counter_runCall_eq env, counter_startCallsOf_ok env cs s hs,
    counter_runCall_released env, counter_runCalls_released env cs s hs⟩

/-- Witness of C15: from the state `initialise` leaves, the sequence update,
display off, display on, update ends with both lines released. -/
theorem C15_start_entered_with_clock_released_witness :
    linesReleased (Counter.runCalls (fun _ => false)
      [DisplayCall.update, DisplayCall.switchOff, DisplayCall.switchOn, DisplayCall.update]
      Counter.init) :=
  (C15_start_entered_with_clock_released (fun _ => false) Counter.init (by decide)
    [DisplayCall.update, DisplayCall.switchOff, DisplayCall.switchOn,
      DisplayCall.update]).2.2.2.2

/-! ### Clock edges of a sequence of bus primitives -/

theorem byteWriteAck_edges (env : Nat → Bool) (s : State) :
    ∃ evs, (byteWriteAck env s).2.pins = s.pins ++ evs
      ∧ clockEdges s.TRISA evs = [true]
      ∧ trisAfter s.TRISA evs = (byteWriteAck env s).2.TRISA
      ∧ (byteWriteAck env s).2.TRISA.testBit 5 = false := by
  have c5 : Nat.testBit 223 5 = false := by decide
  have c4 : Nat.testBit 239 4 = false := by decide
  have d5 : Nat.testBit 16 5 = false := by decide
  have d4 : Nat.testBit 16 4 = true := by decide
  have e5 : Nat.testBit 32 5 = true := by decide
  have e4 : Nat.testBit 32 4 = false := by decide
  have hl := ackLevel env s
  cases hlev : env s.reads
  · rw [hlev] at hl
    simp only [byteWriteAck, byteWriteAckEnd, hl, readDio_pins, delayUs_pins, trisSet_pins,
      portClear_pins, trisClear_pins, readDio_tris, delayUs_tris, trisSet_tris, portClear_tris,
      trisClear_tris, List.append_assoc, List.cons_append, List.nil_append,
      Bool.false_eq_true, if_false, if_true]
    refine ⟨_, rfl, ?_, ?_, ?_⟩
    · simp [clockEdges, tm1637clkTrisBit, tm1637dioTrisBit, c5, c4, d5, d4, e5, e4]
    · simp [trisAfter]
    · simp [tm1637clkTrisBit, c5]
  · rw [hlev] at hl
    simp only [byteWriteAck, byteWriteAckEnd, hl, readDio_pins, delayUs_pins, trisSet_pins,
      portClear_pins, trisClear_pins, readDio_tris, delayUs_tris, trisSet_tris, portClear_tris,
      trisClear_tris, List.append_assoc, List.cons_append, List.nil_append,
      if_true, one_ne_zero, if_false]
    refine ⟨_, rfl, ?_, ?_, ?_⟩
    · simp [clockEdges, tm1637clkTrisBit, tm1637dioTrisBit, c5, c4, d5, d4, e5, e4]
    · simp [trisAfter]
    · simp [tm1637clkTrisBit, c5]

theorem byteWrite_edges (env : Nat → Bool) (b : Nat) (s : State) :
    ∃ evs, (tm1637ByteWrite env b s).2.pins = s.pins ++ evs
      ∧ clockEdges s.TRISA evs = (List.range 8).map (fun i => b.testBit i) ++ [true]
      ∧ trisAfter s.TRISA evs = (tm1637ByteWrite env b s).2.TRISA
      ∧ (tm1637ByteWrite env b s).2.TRISA.testBit 5 = false := by
  obtain ⟨e1, p1, c1, t1, _⟩ := byteWriteData_pins b (logCall (BusOp.write b) s)
  obtain ⟨e2, p2, c2, t2, f2⟩ :=
    byteWriteAck_edges env (byteWriteData b (logCall (BusOp.write b) s))
  rw [logCall_pins] at p1
  rw [logCall_tris] at c1 t1
  refine ⟨e1 ++ e2, ?_, ?_, ?_, f2⟩
  · unfold tm1637ByteWrite
    rw [p2, p1, List.append_assoc]
  · rw [clockEdges_append, c1, t1, c2]
  · rw [trisAfter_append, t1, t2]
    rfl

theorem start_edges (s : State) :
    ∃ evs, (tm1637StartCondition s).pins = s.pins ++ evs
      ∧ clockEdges s.TRISA evs = []
      ∧ trisAfter s.TRISA evs = (tm1637StartCondition s).TRISA
      ∧ (tm1637StartCondition s).TRISA.testBit 5 = s.TRISA.testBit 5 := by
  have c5 : Nat.testBit 239 5 = true := by decide
  refine ⟨_, start_pins s, ?_, ?_, ?_⟩
  · cases h : s.TRISA.testBit 5 <;> simp [clockEdges, tm1637clkTrisBit, c5, h]
  · simp [trisAfter, start_tris]
  · simp [start_tris, c5]

theorem stop_edges (s : State) :
    ∃ evs, (tm1637StopCondition s).pins = s.pins ++ evs
      ∧ clockEdges s.TRISA evs = (if s.TRISA.testBit 5 then [] else [false])
      ∧ trisAfter s.TRISA evs = (tm1637StopCondition s).TRISA
      ∧ (tm1637StopCondition s).TRISA.testBit 5 = true := by
  have c5 : Nat.testBit 239 5 = true := by decide
  have c4 : Nat.testBit 239 4 = false := by decide
  have d5 : Nat.testBit 16 5 = false := by decide
  have e5 : Nat.testBit 32 5 = true := by decide
  have e4 : Nat.testBit 32 4 = false := by decide
  refine ⟨_, stop_pins s, ?_, ?_, ?_⟩
  · cases h : s.TRISA.testBit 5 <;>
      simp [clockEdges, tm1637clkTrisBit, tm1637dioTrisBit, c5, c4, d5, e5, e4, h]
  · simp [trisAfter, stop_tris]
  · simp [stop_tris, e5]

theorem runOps_edges (env : Nat → Bool) (ops : List BusOp) :
    ∀ s : State, ∃ evs, (runOps env ops s).pins = s.pins ++ evs
      ∧ clockEdges s.TRISA evs = opsEdges (s.TRISA.testBit 5) ops := by
  induction ops with
  | nil => intro s; exact ⟨[], by simp [runOps], rfl⟩
  | cons op rest ih =>
    intro s
    cases op with
    | start =>
      obtain ⟨e1, p1, c1, t1, f1⟩ := start_edges s
      obtain ⟨e2, p2, c2⟩ := ih (tm1637StartCondition s)
      refine ⟨e1 ++ e2, ?_, ?_⟩
      · simp only [runOps, runOp]
        rw [p2, p1, List.append_assoc]
      · rw [clockEdges_append, c1, t1, c2, f1]
        rfl
    | write b =>
      obtain ⟨e1, p1, c1, t1, f1⟩ := byteWrite_edges env b s
      obtain ⟨e2, p2, c2⟩ := ih (tm1637ByteWrite env b s).2
      refine ⟨e1 ++ e2, ?_, ?_⟩
      · simp only [runOps, runOp]
        rw [p2, p1, List.append_assoc]
      · rw [clockEdges_append, c1, t1, c2, f1]
        rfl
    | stop =>
      obtain ⟨e1, p1, c1, t1, f1⟩ := stop_edges s
      obtain ⟨e2, p2, c2⟩ := ih (tm1637StopCondition s)
      refine ⟨e1 ++ e2, ?_, ?_⟩
      · simp only [runOps, runOp]
        rw [p2, p1, List.append_assoc]
      · rw [clockEdges_append, c1, t1, c2, f1]
        rfl

theorem counter_update_edges (env : Nat → Bool) (s : State) :
    clockEdges s.TRISA ((Counter.tm1637UpdateDisplay env s).pins.drop s.pins.length)
      = opsEdges (s.TRISA.testBit 5)
          (updateOps (Counter.renderSegs s) s.tm1637Brightness) := by
  obtain ⟨evs, p, c⟩ :=
    runOps_edges env (updateOps (Counter.renderSegs s) s.tm1637Brightness) s
  rw [counter_update_run, p, List.drop_left, c]

/-! ### Acknowledgment -/

/-- C19: a missing acknowledgment never alters transmission.  For every buffer and
configuration and any two sequences `env1`, `env2` of levels read from the data
line, `tm1637UpdateDisplay` makes the same calls of the bus primitives in both
runs (the same seven bytes in the same order with the same start/stop framing,
both builds), leaves the same display variables, and (counter build) puts the same
data levels on the line at the same rising clock edges. -/
theorem C19_missing_ack_ignored (env1 env2 : Nat → Bool) (s : State) :
    (Counter.tm1637UpdateDisplay env1 s).calls = (Counter.tm1637UpdateDisplay env2 s).calls
    ∧ (bytesWritten ((Counter.tm1637UpdateDisplay env1 s).calls.drop s.calls.length)).length = 7
    ∧ display (Counter.tm1637UpdateDisplay env1 s) = display (Counter.tm1637UpdateDisplay env2 s)
    ∧ clockEdges s.TRISA ((Counter.tm1637UpdateDisplay env1 s).pins.drop s.pins.length)
        = clockEdges s.TRISA ((Counter.tm1637UpdateDisplay env2 s).pins.drop s.pins.length)
    ∧ (ADC.tm1637UpdateDisplay env1 s).calls = (ADC.tm1637UpdateDisplay env2 s).calls
    ∧ (bytesWritten ((ADC.tm1637UpdateDisplay env1 s).calls.drop s.calls.length)).length = 7 := by
  refine ⟨?_, ?_, ?_, ?_, ?_, ?_⟩
  · rw [(counter_update_calls env1 s).1, (counter_update_calls env2 s).1]
  · rw [(counter_update_calls env1 s).1, List.drop_left, counter_renderSegs_four]
    rfl
  · rw [(counter_update_calls env1 s).2, (counter_update_calls env2 s).2]
  · rw [counter_update_edges env1 s, counter_update_edges env2 s]
  · rw [(adc_update_calls env1 s).1, (adc_update_calls env2 s).1]
  · rw [(adc_update_calls env1 s).1, List.drop_left, adc_renderSegs_four]
    rfl

/-! ### The segment table -/

set_option maxRecDepth 100000 in
theorem segTable_decode :
    ∀ d1, d1 ≤ 9 → ∀ d2, d2 ≤ 9 → ∀ p1 p2 : Bool,
      numToSeg d1 ||| (if p1 then 0x80 else 0) = numToSeg d2 ||| (if p2 then 0x80 else 0) →
        d1 = d2 ∧ p1 = p2 := by
  decide

/-- C21: the segment table (the same initialiser in both builds) is
`[0x3F,0x06,0x5B,0x4F,0x66,0x6D,0x7D,0x07,0x7F,0x6F]` for the digits 0..9; every
entry is non-zero and has bit 7 clear, the entries are pairwise distinct, and for
every digit `d` in 0..9 and decimal point flag `p` the byte
`SegmentTable[d] OR (p ? 0x80 : 0)` determines `d` and `p` and is not the blank
byte `0x00`. -/
theorem C21_segment_table (d1 d2 : Nat) (h1 : d1 ≤ 9) (h2 : d2 ≤ 9) (p1 p2 : Bool) :
    tm1637DisplayNumtoSeg = [0x3F, 0x06, 0x5B, 0x4F, 0x66, 0x6D, 0x7D, 0x07, 0x7F, 0x6F]
    ∧ tm1637DisplayNumtoSeg[d1]? = some (numToSeg d1)
    ∧ numToSeg d1 ≠ 0
    ∧ (numToSeg d1).testBit 7 = false
    ∧ (numToSeg d1 = numToSeg d2 → d1 = d2)
    ∧ (numToSeg d1 ||| (if p1 then 0x80 else 0) = numToSeg d2 ||| (if p2 then 0x80 else 0) →
        d1 = d2 ∧ p1 = p2)
    ∧ numToSeg d1 ||| (if p1 then 0x80 else 0) ≠ 0x00 := by
  refine ⟨rfl, ?_, (numToSeg_facts d1 h1).1, (numToSeg_facts d1 h1).2.1, ?_,
    segTable_decode d1 h1 d2 h2 p1 p2, ?_⟩
  · interval_cases d1 <;> rfl
  · intro h
    exact (segTable_decode d1 h1 d2 h2 false false (by simpa using h)).1
  · cases p1
    · simpa using (numToSeg_facts d1 h1).1
    · simpa using (numToSeg_facts d1 h1).2.2.2

/-- Witness of C21: digit 8, the table's entry with all seven segments lit. -/
theorem C21_segment_table_witness :
    tm1637DisplayNumtoSeg[8]? = some (numToSeg 8) ∧ numToSeg 8 ≠ 0 :=
  ⟨(C21_segment_table 8 0 (by decide) (by decide) false true).2.1,
   (C21_segment_table 8 0 (by decide) (by decide) false true).2.2.1⟩

/-! ### The ADC reading -/

theorem readADC_eq (sel lo hi : Nat) (hlo : lo ≤ 255) (hhi : hi ≤ 3) (h1 : 1 ≤ sel)
    (h3 : sel ≤ 3) : ADC.readADC sel lo hi = (hi * 256 + lo) * 2 ^ (sel - 1) := by
  have e1 : (hi <<< 8) % 65536 = 2 ^ 8 * hi := by
    rw [Nat.shiftLeft_eq]
    omega
  have e2 : lo ||| 2 ^ 8 * hi = 2 ^ 8 * hi + lo := by
    rw [Nat.lor_comm]
    exact (Nat.mul_add_lt_is_or (by omega) hi).symm
  have e3 : (sel + 255) % 256 = sel - 1 := by omega
  unfold ADC.readADC
  rw [e1, e2, e3, Nat.shiftLeft_eq]
  interval_cases sel <;> simp <;> omega

/-- C22: `readADC` converts the ratiometric reading to millivolts as documented
(`ADCmV = VrefmV*ADCval/1024`).  For every 10 bit result `a = 256*ADRESH + ADRESL`
in 0..1023 and every `ADCrefSelect` in 1, 2, 3 it returns `a * 2^(ADCrefSelect-1)`,
which is `Vref * a / 1024` (rounded down) for `Vref = 1024 * 2^(ADCrefSelect-1)`,
that is 1024, 2048 and 4096 mV; the result is at most 4092, so nothing overflows
16 bits and four digits suffice. -/
theorem C22_readADC_millivolts (ADCrefSelect ADRESL ADRESH : Nat) (hlo : ADRESL ≤ 255)
    (hhi : ADRESH ≤ 3) (h1 : 1 ≤ ADCrefSelect) (h3 : ADCrefSelect ≤ 3) :
    ADC.readADC ADCrefSelect ADRESL ADRESH = (256 * ADRESH + ADRESL) * 2 ^ (ADCrefSelect - 1)
    ∧ ADC.readADC ADCrefSelect ADRESL ADRESH
        = (1024 * 2 ^ (ADCrefSelect - 1)) * (256 * ADRESH + ADRESL) / 1024
    ∧ 256 * ADRESH + ADRESL ≤ 1023
    ∧ ADC.readADC ADCrefSelect ADRESL ADRESH ≤ 4092
    ∧ ADC.readADC ADCrefSelect ADRESL ADRESH ≤ 9999
    ∧ (ADC.readADC 1 ADRESL ADRESH = 1024 * (256 * ADRESH + ADRESL) / 1024
        ∧ ADC.readADC 2 ADRESL ADRESH = 2048 * (256 * ADRESH + ADRESL) / 1024
        ∧ ADC.readADC 3 ADRESL ADRESH = 4096 * (256 * ADRESH + ADRESL) / 1024) := by
  rw [readADC_eq ADCrefSelect ADRESL ADRESH hlo hhi h1 h3,
    readADC_eq 1 ADRESL ADRESH hlo hhi (by decide) (by decide),
    readADC_eq 2 ADRESL ADRESH hlo hhi (by decide) (by decide),
    readADC_eq 3 ADRESL ADRESH hlo hhi (by decide) (by decide)]
  interval_cases ADCrefSelect <;> simp <;> omega

/-- Witness of C22: the largest reading, `ADRESH:ADRESL = 0x3FF` with the 4.096 V
reference, is 4092 mV. -/
theorem C22_readADC_millivolts_witness : ADC.readADC 3 0xFF 0x03 ≤ 4092 :=
  (C22_readADC_millivolts 3 0xFF 0x03 (by decide) (by decide) (by decide) (by decide)).2.2.2.1

/-! ### Rendering leaves the display variables alone -/

theorem displayOn_display (env : Nat → Bool) (s : State) :
    display (tm1637DisplayOn env s) = display s := by
  simp only [tm1637DisplayOn, stop_display, byteWrite_display, start_display]

theorem displayOff_display (env : Nat → Bool) (s : State) :
    display (tm1637DisplayOff env s) = display s := by
  simp only [tm1637DisplayOff, stop_display, byteWrite_display, start_display]

theorem stopBlankingInit_congr (s t : State) (h : display t = display s) :
    stopBlankingInit t = stopBlankingInit s := by
  simp only [display, Prod.mk.injEq] at h
  simp only [stopBlankingInit, h.2.2.2.1]

theorem counter_renderSegs_congr (s t : State) (h : display t = display s) :
    Counter.renderSegs t = Counter.renderSegs s := by
  rw [counter_renderSegs_four, counter_renderSegs_four]
  simp only [counter_digitSegs_congr s t h, stopBlankingInit_congr s t h]

theorem adc_renderSegs_congr (s t : State) (h : display t = display s) :
    ADC.renderSegs t = ADC.renderSegs s := by
  rw [adc_renderSegs_four, adc_renderSegs_four]
  simp only [adc_digitSegs_congr s t h, stopBlankingInit_congr s t h]

theorem counter_update_bytes (env : Nat → Bool) (s : State) :
    bytesWritten ((Counter.tm1637UpdateDisplay env s).calls.drop s.calls.length)
      = [0x40, 0xC0] ++ Counter.renderSegs s ++ [(0x88 + s.tm1637Brightness) % 256] := by
  rw [(counter_update_calls env s).1, List.drop_left, counter_renderSegs_four,
    bytesWritten_updateOps]
  rfl

theorem adc_update_bytes (env : Nat → Bool) (s : State) :
    bytesWritten ((ADC.tm1637UpdateDisplay env s).calls.drop s.calls.length)
      = [0x40, 0xC0] ++ ADC.renderSegs s ++ [(0x88 + s.tm1637Brightness) % 256] := by
  rw [(adc_update_calls env s).1, List.drop_left, adc_renderSegs_four, bytesWritten_updateOps]
  rfl

/-- C23: rendering has no effect on the display state.  `tm1637UpdateDisplay`
(both builds), `tm1637DisplayOn`, `tm1637DisplayOff`, `tm1637StartCondition`,
`tm1637StopCondition` and `tm1637ByteWrite` leave `tm1637Data`,
`tm1637Brightness`, `decimalPointPos`, `zeroBlanking` and `numDisplayedDigits` as
they are, so two consecutive calls of `tm1637UpdateDisplay` write the same
sequence of bytes, whatever is sampled from the data line. -/
theorem C23_rendering_keeps_display_state (env env2 : Nat → Bool) (b : Nat) (s : State) :
    display (Counter.tm1637UpdateDisplay env s) = display s
    ∧ display (ADC.tm1637UpdateDisplay env s) = display s
    ∧ display (tm1637DisplayOn env s) = display s
    ∧ display (tm1637DisplayOff env s) = display s
    ∧ display (tm1637StartCondition s) = display s
    ∧ display (tm1637StopCondition s) = display s
    ∧ display (tm1637ByteWrite env b s).2 = display s
    ∧ bytesWritten ((Counter.tm1637UpdateDisplay env2 (Counter.tm1637UpdateDisplay env s)).calls.drop
          (Counter.tm1637UpdateDisplay env s).calls.length)
        = bytesWritten ((Counter.tm1637UpdateDisplay env s).calls.drop s.calls.length)
    ∧ bytesWritten ((ADC.tm1637UpdateDisplay env2 (ADC.tm1637UpdateDisplay env s)).calls.drop
          (ADC.tm1637UpdateDisplay env s).calls.length)
        = bytesWritten ((ADC.tm1637UpdateDisplay env s).calls.drop s.calls.length) := by
  have hc := (counter_update_calls env s).2
  have ha := (adc_update_calls env s).2
  refine ⟨hc, ha, displayOn_display env s, displayOff_display env s, start_display s,
    stop_display s, byteWrite_display env b s, ?_, ?_⟩
  · rw [counter_update_bytes, counter_update_bytes, counter_renderSegs_congr s _ hc,
      display_brightness s _ hc]
  · rw [adc_update_bytes, adc_update_bytes, adc_renderSegs_congr s _ ha,
      display_brightness s _ ha]

/-! ### Rounding threshold -/

/-- C25: `roundDigits` rounds up only when the rightmost digit is above 5.  For
every buffer `[a, b, c, d]` of digits 0..9, position 3 is 0 afterwards; when `d` is
in 0..5 (a trailing 5 rounds down) positions 0..2 are unchanged; when `d` is in
6..9 the three digit number held in positions 0..2 is increased by exactly 1
modulo 1000. -/
theorem C25_roundDigits_threshold (a b c d : Nat) (ha : a ≤ 9) (hb : b ≤ 9) (hc : c ≤ 9)
    (hd : d ≤ 9) (s : State) (h : s.tm1637Data = [a, b, c, d]) :
    (ADC.roundDigits s).tm1637Data.getD 3 1 = 0
    ∧ (d ≤ 5 → (ADC.roundDigits s).tm1637Data = [a, b, c, 0])
    ∧ (6 ≤ d → ∃ a1 b1 c1, (ADC.roundDigits s).tm1637Data = [a1, b1, c1, 0]
        ∧ a1 ≤ 9 ∧ b1 ≤ 9 ∧ c1 ≤ 9
        ∧ 100 * a1 + 10 * b1 + c1 = (100 * a + 10 * b + c + 1) % 1000) := by
  rw [roundDigits_closed a b c d ha hb hc hd s h]
  simp only [digits4, List.getD_cons_succ, List.getD_cons_zero]
  refine ⟨by omega, ?_, ?_⟩
  · intro h5
    simp only [List.cons.injEq, and_true]
    omega
  · intro h6
    have h0 : 10 * ((1000 * a + 100 * b + 10 * c + d + 4) / 10) % 10000 % 10 = 0 := by omega
    rw [h0]
    refine ⟨_, _, _, rfl, ?_⟩
    omega

/-- Witness of C25: the buffer `[1, 9, 9, 5]`: a trailing 5 rounds down and
positions 0..2 stay `1, 9, 9`. -/
theorem C25_roundDigits_threshold_witness :
    (ADC.roundDigits { ADC.init with tm1637Data := [1, 9, 9, 5] }).tm1637Data = [1, 9, 9, 0] :=
  (C25_roundDigits_threshold 1 9 9 5 (by decide) (by decide) (by decide) (by decide)
    { ADC.init with tm1637Data := [1, 9, 9, 5] } rfl).2.1 (by decide)

/-! ### Termination and index bounds of the digit extraction -/

theorem counter_getDigitsLoop_record (v : Nat) :
    Counter.getDigitsLoop v { data := [0, 0, 0, 0], ctr := 3, iters := 0, writes := [] }
      = if v = 0 then { data := [0, 0, 0, 0], ctr := 3, iters := 0, writes := [] }
        else if v / 10 = 0 then
          { data := [0, 0, 0, v % 10 % 256], ctr := 2, iters := 1, writes := [3] }
        else if v / 10 / 10 = 0 then
          { data := [0, 0, v / 10 % 10 % 256, v % 10 % 256], ctr := 1, iters := 2,
            writes := [3, 2] }
        else if v / 10 / 10 / 10 = 0 then
          { data := [0, v / 10 / 10 % 10 % 256, v / 10 % 10 % 256, v % 10 % 256], ctr := 0,
            iters := 3, writes := [3, 2, 1] }
        else if v / 10 / 10 / 10 / 10 = 0 then
          { data := [v / 10 / 10 / 10 % 10 % 256, v / 10 / 10 % 10 % 256, v / 10 % 10 % 256,
              v % 10 % 256], ctr := -1, iters := 4, writes := [3, 2, 1, 0] }
        else
          { data := [v / 10 / 10 / 10 % 10 % 256, v / 10 / 10 % 10 % 256, v / 10 % 10 % 256,
              v % 10 % 256], ctr := -1, iters := 5, writes := [3, 2, 1, 0] } := by
  by_cases h0 : v = 0
  · subst h0; rw [counter_getDigitsLoop_zero]; rfl
  rw [if_neg h0, counter_getDigitsLoop_pos _ _ _ _ _ (by omega) (by decide)]
  by_cases h1 : v / 10 = 0
  · rw [if_pos h1, h1, counter_getDigitsLoop_zero]; rfl
  rw [if_neg h1, counter_getDigitsLoop_pos _ _ _ _ _ (by omega) (by decide)]
  by_cases h2 : v / 10 / 10 = 0
  · rw [if_pos h2, h2, counter_getDigitsLoop_zero]; rfl
  rw [if_neg h2, counter_getDigitsLoop_pos _ _ _ _ _ (by omega) (by decide)]
  by_cases h3 : v / 10 / 10 / 10 = 0
  · rw [if_pos h3, h3, counter_getDigitsLoop_zero]; rfl
  rw [if_neg h3, counter_getDigitsLoop_pos _ _ _ _ _ (by omega) (by decide)]
  by_cases h4 : v / 10 / 10 / 10 / 10 = 0
  · rw [if_pos h4, h4, counter_getDigitsLoop_zero]; rfl
  rw [if_neg h4, counter_getDigitsLoop_neg _ _ _ _ _ (by omega) (by decide)]
  rfl

theorem getDigitsLoop_agree (n : Nat) :
    ∀ r : DigitsRun, ADC.getDigitsLoop n r = Counter.getDigitsLoop n r := by
  induction n using Nat.strong_induction_on with
  | _ n ih =>
    intro r
    rw [ADC.getDigitsLoop, Counter.getDigitsLoop]
    split
    · split
      · exact ih _ (by omega) _
      · exact ih 0 (by omega) _
    · rfl

theorem getDigits_agree (v : Nat) (s : State) : ADC.getDigits v s = Counter.getDigits v s := by
  simp only [ADC.getDigits, Counter.getDigits, getDigitsLoop_agree]

theorem getDigitsLoop_bounds (v : Nat) (r : DigitsRun)
    (hr : r = Counter.getDigitsLoop v { data := [0, 0, 0, 0], ctr := 3, iters := 0, writes := [] }) :
    r.iters ≤ 5 ∧ r.writes.length ≤ 4 ∧ r.iters ≤ r.writes.length + 1
    ∧ (∀ i ∈ r.writes, 0 ≤ i ∧ i ≤ 3 ∧ i.toNat < r.data.length)
    ∧ -1 ≤ r.ctr ∧ r.ctr = 3 - (r.writes.length : Int) ∧ r.data.length = 4
    ∧ (10000 ≤ v → r.iters = 5) := by
  rw [counter_getDigitsLoop_record] at hr
  subst hr
  split_ifs <;> simp <;> omega

/-- C30: `getDigits` terminates for every 16 bit input and never indexes outside
the buffer (both builds).  The `while` loop, started as `getDigits` starts it on a
four entry buffer, makes at most 5 iterations: at most 4 digit extractions and one
iteration that forces `number` to 0.  Every value of `ctr` used as an index into
`tm1637Data` is in 0..3, and `ctr` ends at 3 minus the number of extractions, never
below -1. -/
theorem C30_getDigits_terminates_in_bounds (v : Nat) (_hv : v ≤ 65535) (s : State)
    (hlen : s.tm1637Data.length = 4) (r : DigitsRun)
    (hr : r = Counter.getDigitsLoop v
      { data := zeroFill s.tm1637Data, ctr := (tm1637RightDigit : Int), iters := 0,
        writes := [] }) :
    (Counter.getDigits v s).2.tm1637Data = r.data
    ∧ (ADC.getDigits v s).2.tm1637Data = r.data
    ∧ r = ADC.getDigitsLoop v
        { data := zeroFill s.tm1637Data, ctr := (tm1637RightDigit : Int), iters := 0,
          writes := [] }
    ∧ r.iters ≤ 5
    ∧ r.writes.length ≤ 4
    ∧ r.iters ≤ r.writes.length + 1
    ∧ (∀ i ∈ r.writes, 0 ≤ i ∧ i ≤ 3 ∧ i.toNat < r.data.length)
    ∧ -1 ≤ r.ctr
    ∧ r.ctr = 3 - (r.writes.length : Int)
    ∧ (10000 ≤ v → r.iters = 5) := by
  have hstart : DigitsRun.mk (zeroFill s.tm1637Data) (tm1637RightDigit : Int) 0 []
      = DigitsRun.mk [0, 0, 0, 0] 3 0 [] := by
    rw [zeroFill_eq _ hlen]
    rfl
  have hb := getDigitsLoop_bounds v r (by rw [hr, hstart])
  refine ⟨?_, ?_, ?_, hb.1, hb.2.1, hb.2.2.1, hb.2.2.2.1, hb.2.2.2.2.1, hb.2.2.2.2.2.1,
    hb.2.2.2.2.2.2.2⟩
  · rw [hr]; rfl
  · rw [getDigits_agree, hr]; rfl
  · rw [getDigitsLoop_agree, hr]

/-- Witness of C30: the largest 16 bit value from the initial state of the counter
build takes exactly 5 iterations. -/
theorem C30_getDigits_terminates_in_bounds_witness :
    (Counter.getDigitsLoop 65535
      { data := zeroFill Counter.init.tm1637Data, ctr := (tm1637RightDigit : Int), iters := 0,
        writes := [] }).iters = 5 :=
  (C30_getDigits_terminates_in_bounds 65535 (by decide) Counter.init (by decide) _ rfl).2.2.2.2.2.2.2.2.2
    (by decide)

/-! ### Agreement of the two builds -/

theorem adc_updateFold_run (env : Nat → Bool) (s : State) (l : List Nat) :
    ∀ (sb : Nat) (t : State), display t = display s →
      (l.foldl (ADC.updateStep env) (sb, t)).2
        = runOps env ((ADC.renderFrom s sb l).map BusOp.write) t := by
  induction l with
  | nil => intro sb t _; rfl
  | cons ctr rest ih =>
    intro sb t h
    rw [List.foldl_cons]
    have hw := byteWrite_display env (ADC.digitSegs t sb ctr).1 t
    have h1 := ih (ADC.digitSegs t sb ctr).2
      (tm1637ByteWrite env (ADC.digitSegs t sb ctr).1 t).2 (hw.trans h)
    simp only [ADC.updateStep]
    rw [h1, adc_digitSegs_congr s t h]
    rfl

theorem adc_update_run (env : Nat → Bool) (s : State) :
    ADC.tm1637UpdateDisplay env s
      = runOps env (updateOps (ADC.renderSegs s) s.tm1637Brightness) s := by
  have hd : display (tm1637ByteWrite env tm1637ByteSetAddr (tm1637StartCondition
      (tm1637StopCondition (tm1637ByteWrite env tm1637ByteSetData
        (tm1637StartCondition s)).2))).2 = display s := by
    simp only [byteWrite_display, start_display, stop_display]
  have a3 := adc_updateFold_run env s (List.range tm1637MaxDigits) (stopBlankingInit s) _ hd
  have a3d := (adc_updateFold env s (List.range tm1637MaxDigits) (stopBlankingInit s) _ hd).2
  have hb2 : (tm1637StartCondition (tm1637StopCondition
      ((List.range tm1637MaxDigits).foldl (ADC.updateStep env) (stopBlankingInit s,
        (tm1637ByteWrite env tm1637ByteSetAddr (tm1637StartCondition
          (tm1637StopCondition (tm1637ByteWrite env tm1637ByteSetData
            (tm1637StartCondition s)).2))).2)).2)).tm1637Brightness = s.tm1637Brightness :=
    display_brightness s _ ((start_display _).trans ((stop_display _).trans a3d))
  simp only [ADC.tm1637UpdateDisplay, hb2]
  rw [a3]
  simp only [updateOps, runOps_append, ADC.renderSegs]
  rfl

/-- C29: the duplicated display logic of the two builds agrees.  For every buffer,
zero blanking flag, decimal point position and brightness, the ADC build's
`tm1637UpdateDisplay` with `numDisplayedDigits ≥ 4` issues exactly the same sequence
of bus operations as the counter build's (the two calls even end in the same
state), and the two `getDigits` functions produce the same buffer for every 16 bit
input. -/
theorem C29_builds_agree (env : Nat → Bool) (s : State) (hn : 4 ≤ s.numDisplayedDigits)
    (v : Nat) (_hv : v ≤ 65535) :
    (ADC.tm1637UpdateDisplay env s).calls = (Counter.tm1637UpdateDisplay env s).calls
    ∧ ADC.tm1637UpdateDisplay env s = Counter.tm1637UpdateDisplay env s
    ∧ (ADC.getDigits v s).2.tm1637Data = (Counter.getDigits v s).2.tm1637Data
    ∧ ADC.getDigits v s = Counter.getDigits v s := by
  have h : ADC.tm1637UpdateDisplay env s = Counter.tm1637UpdateDisplay env s := by
    rw [adc_update_run, counter_update_run, adc_renderSegs_unlimited s hn]
  exact ⟨by rw [h], h, by rw [getDigits_agree], getDigits_agree v s⟩

/-- Witness of C29: the ADC build's initial state with the digit limit raised to
4 and the value 1234. -/
theorem C29_builds_agree_witness :
    ADC.tm1637UpdateDisplay (fun _ => false) { ADC.init with numDisplayedDigits := 4 }
      = Counter.tm1637UpdateDisplay (fun _ => false) { ADC.init with numDisplayedDigits := 4 } :=
  (C29_builds_agree (fun _ => false) { ADC.init with numDisplayedDigits := 4 } (by decide)
    1234 (by decide)).2.1

/-! ### The data line during the data phase -/

theorem dataHeld_append (l1 l2 : List PinEv) :
    ∀ t : Nat, dataHeldWhileClockHigh t (l1 ++ l2)
      = (dataHeldWhileClockHigh t l1 && dataHeldWhileClockHigh (trisAfter t l1) l2) := by
  induction l1 with
  | nil => intro t; simp [dataHeldWhileClockHigh, trisAfter]
  | cons e rest ih =>
    intro t
    cases e with
    | tris v =>
      show dataHeldWhileClockHigh t (PinEv.tris v :: (rest ++ l2)) = _
      simp only [dataHeldWhileClockHigh, trisAfter, ih v, Bool.and_assoc]
    | port v => exact ih t
    | delayUs n => exact ih t
    | readDio level => exact ih t

theorem byteWriteBit_held (acc : Nat × State) (i : Nat) :
    ∃ evs, (byteWriteBit acc i).2.pins = acc.2.pins ++ evs
      ∧ dataHeldWhileClockHigh acc.2.TRISA evs = true
      ∧ trisAfter acc.2.TRISA evs = (byteWriteBit acc i).2.TRISA := by
  have c5 : Nat.testBit 223 5 = false := by decide
  have c4 : Nat.testBit 223 4 = true := by decide
  have b5 : Nat.testBit 239 5 = true := by decide
  have b4 : Nat.testBit 239 4 = false := by decide
  have d5 : Nat.testBit 16 5 = false := by decide
  have d4 : Nat.testBit 16 4 = true := by decide
  have e5 : Nat.testBit 32 5 = true := by decide
  have e4 : Nat.testBit 32 4 = false := by decide
  by_cases hbit : acc.1 &&& 1 > 0
  · simp only [byteWriteBit, putDataBit, if_pos hbit, delayUs_pins, trisSet_pins, portClear_pins,
      trisClear_pins, delayUs_tris, trisSet_tris, portClear_tris, trisClear_tris,
      List.append_assoc, List.cons_append, List.nil_append]
    refine ⟨_, rfl, ?_, ?_⟩
    · simp [dataHeldWhileClockHigh, tm1637clkTrisBit, tm1637dioTrisBit, c5, c4, b5, b4, d5, d4,
        e5, e4]
    · simp [trisAfter]
  · simp only [byteWriteBit, putDataBit, if_neg hbit, delayUs_pins, trisSet_pins, portClear_pins,
      trisClear_pins, delayUs_tris, trisSet_tris, portClear_tris, trisClear_tris,
      List.append_assoc, List.cons_append, List.nil_append]
    refine ⟨_, rfl, ?_, ?_⟩
    · simp [dataHeldWhileClockHigh, tm1637clkTrisBit, tm1637dioTrisBit, c5, c4, b5, b4, d5, d4,
        e5, e4]
    · simp [trisAfter]

theorem byteWriteFold_held (l : List Nat) :
    ∀ acc : Nat × State, ∃ evs, (l.foldl byteWriteBit acc).2.pins = acc.2.pins ++ evs
      ∧ dataHeldWhileClockHigh acc.2.TRISA evs = true
      ∧ trisAfter acc.2.TRISA evs = (l.foldl byteWriteBit acc).2.TRISA := by
  induction l with
  | nil => intro acc; exact ⟨[], by simp, rfl, rfl⟩
  | cons i rest ih =>
    intro acc
    obtain ⟨e1, p1, c1, t1⟩ := byteWriteBit_held acc i
    obtain ⟨e2, p2, c2, t2⟩ := ih (byteWriteBit acc i)
    refine ⟨e1 ++ e2, ?_, ?_, ?_⟩
    · rw [List.foldl_cons, p2, p1, List.append_assoc]
    · rw [dataHeld_append, c1, t1, c2]
      rfl
    · rw [trisAfter_append, t1, t2, List.foldl_cons]

/-- C28: during the 8 data bits of `tm1637ByteWrite` the direction of the data line
is changed only while the clock line is driven low.  For every byte and every
state, in the pin history of the data phase every write to `TRISA` that changes
the data bit is made with the clock bit clear before and after it, so the data
line is held from each clock release until the clock is next driven low and no
start-like or stop-like transition (data changing while the clock is released)
occurs inside the data phase.  The predicate does detect such a transition in a start
condition from the idle state. -/
theorem C28_data_changes_only_with_clock_low (b : Nat) (s : State) :
    dataHeldWhileClockHigh s.TRISA ((byteWriteData b s).pins.drop s.pins.length) = true
    ∧ dataHeldWhileClockHigh s.TRISA
        ((byteWriteData b (logCall (BusOp.write b) s)).pins.drop s.pins.length) = true
    ∧ dataHeldWhileClockHigh Counter.init.TRISA
        ((tm1637StartCondition Counter.init).pins.drop Counter.init.pins.length) = false := by
  obtain ⟨e1, p1, c1, _⟩ := byteWriteFold_held (List.range 8) (b, s)
  obtain ⟨e2, p2, c2, _⟩ := byteWriteFold_held (List.range 8) (b, logCall (BusOp.write b) s)
  refine ⟨?_, ?_, ?_⟩
  · unfold byteWriteData
    rw [p1, List.drop_left]
    exact c1
  · unfold byteWriteData
    rw [p2]
    simp only [logCall_pins, List.drop_left]
    exact c2
  · rw [start_pins, List.drop_left]
    decide

/-! ### The acknowledgment cycle -/

theorem portClear_porta (bit : Nat) (s : State) :
    (portClear bit s).PORTA = s.PORTA &&& (0xFF ^^^ (1 <<< bit)) := rfl

theorem readDio_porta (env : Nat → Bool) (s : State) : (readDio env s).PORTA = s.PORTA := rfl

theorem byteWriteAck_sequence (env : Nat → Bool) (t : State) :
    (env t.reads = true →
      (byteWriteAck env t).2.pins
        = t.pins ++ [PinEv.tris (t.TRISA &&& 0xDF), PinEv.port (t.PORTA &&& 0xDF),
            PinEv.tris ((t.TRISA &&& 0xDF) ||| 0x10), PinEv.port ((t.PORTA &&& 0xDF) &&& 0xEF),
            PinEv.delayUs 100,
            PinEv.tris (((t.TRISA &&& 0xDF) ||| 0x10) ||| 0x20), PinEv.delayUs 100,
            PinEv.readDio true,
            PinEv.delayUs 100,
            PinEv.tris ((((t.TRISA &&& 0xDF) ||| 0x10) ||| 0x20) &&& 0xDF),
            PinEv.port (((t.PORTA &&& 0xDF) &&& 0xEF) &&& 0xDF), PinEv.delayUs 100])
    ∧ (env t.reads = false →
      (byteWriteAck env t).2.pins
        = t.pins ++ [PinEv.tris (t.TRISA &&& 0xDF), PinEv.port (t.PORTA &&& 0xDF),
            PinEv.tris ((t.TRISA &&& 0xDF) ||| 0x10), PinEv.port ((t.PORTA &&& 0xDF) &&& 0xEF),
            PinEv.delayUs 100,
            PinEv.tris (((t.TRISA &&& 0xDF) ||| 0x10) ||| 0x20), PinEv.delayUs 100,
            PinEv.readDio false,
            PinEv.tris ((((t.TRISA &&& 0xDF) ||| 0x10) ||| 0x20) &&& 0xEF),
            PinEv.port (((t.PORTA &&& 0xDF) &&& 0xEF) &&& 0xEF),
            PinEv.delayUs 100,
            PinEv.tris (((((t.TRISA &&& 0xDF) ||| 0x10) ||| 0x20) &&& 0xEF) &&& 0xDF),
            PinEv.port ((((t.PORTA &&& 0xDF) &&& 0xEF) &&& 0xEF) &&& 0xDF), PinEv.delayUs 100])
    ∧ (byteWriteAck env t).2.TRISA.testBit tm1637clkTrisBit = false
    ∧ (byteWriteAck env t).2.TRISA.testBit tm1637dioTrisBit = env t.reads := by
  have c5 : Nat.testBit 223 5 = false := by decide
  have c4 : Nat.testBit 223 4 = true := by decide
  have b4 : Nat.testBit 239 4 = false := by decide
  have d4 : Nat.testBit 16 4 = true := by decide
  have e4 : Nat.testBit 32 4 = false := by decide
  have hl := ackLevel env t
  cases hlev : env t.reads
  · rw [hlev] at hl
    simp only [byteWriteAck, byteWriteAckEnd, hl, readDio_pins, delayUs_pins, trisSet_pins,
      portClear_pins, trisClear_pins, readDio_tris, delayUs_tris, trisSet_tris, portClear_tris,
      trisClear_tris, readDio_porta, delayUs_porta, trisSet_porta, portClear_porta,
      trisClear_porta, List.append_assoc, List.cons_append, List.nil_append,
      Bool.false_eq_true, if_false, if_true]
    simp only [tm1637clkTrisBit, tm1637dioTrisBit]
    refine ⟨fun h => absurd h (by decide), fun _ => rfl, ?_, ?_⟩
    · simp [c5]
    · simp [c5, c4, b4, d4, e4]
  · rw [hlev] at hl
    simp only [byteWriteAck, byteWriteAckEnd, hl, readDio_pins, delayUs_pins, trisSet_pins,
      portClear_pins, trisClear_pins, readDio_tris, delayUs_tris, trisSet_tris, portClear_tris,
      trisClear_tris, readDio_porta, delayUs_porta, trisSet_porta, portClear_porta,
      trisClear_porta, List.append_assoc, List.cons_append, List.nil_append,
      if_true, one_ne_zero, if_false]
    simp only [tm1637clkTrisBit, tm1637dioTrisBit]
    refine ⟨fun _ => rfl, fun h => absurd h (by decide), ?_, ?_⟩
    · simp [c5]
    · simp [c5, c4, b4, d4, e4]

/-- C26: the acknowledgment cycle of `tm1637ByteWrite`.  With `t` the state after
the 8 data bits, the call goes on from `t` to: drive the clock low, release the
data line, delay, release the clock, delay, sample the data line, re-drive the data
line low if and only if the sample was low (acknowledgment asserted), delay, drive
the clock low, delay.  For every byte and every sample the function returns with
the clock line driven low (`TRISA` bit 5 clear) and the data line driven low iff
the acknowledgment was asserted, released otherwise. -/
theorem C26_acknowledgment_cycle (env : Nat → Bool) (b : Nat) (s t : State)
    (ht : t = byteWriteData b (logCall (BusOp.write b) s)) :
    t.reads = s.reads
    ∧ (env s.reads = true →
      (tm1637ByteWrite env b s).2.pins
        = t.pins ++ [PinEv.tris (t.TRISA &&& 0xDF), PinEv.port (t.PORTA &&& 0xDF),
            PinEv.tris ((t.TRISA &&& 0xDF) ||| 0x10), PinEv.port ((t.PORTA &&& 0xDF) &&& 0xEF),
            PinEv.delayUs 100,
            PinEv.tris (((t.TRISA &&& 0xDF) ||| 0x10) ||| 0x20), PinEv.delayUs 100,
            PinEv.readDio true,
            PinEv.delayUs 100,
            PinEv.tris ((((t.TRISA &&& 0xDF) ||| 0x10) ||| 0x20) &&& 0xDF),
            PinEv.port (((t.PORTA &&& 0xDF) &&& 0xEF) &&& 0xDF), PinEv.delayUs 100])
    ∧ (env s.reads = false →
      (tm1637ByteWrite env b s).2.pins
        = t.pins ++ [PinEv.tris (t.TRISA &&& 0xDF), PinEv.port (t.PORTA &&& 0xDF),
            PinEv.tris ((t.TRISA &&& 0xDF) ||| 0x10), PinEv.port ((t.PORTA &&& 0xDF) &&& 0xEF),
            PinEv.delayUs 100,
            PinEv.tris (((t.TRISA &&& 0xDF) ||| 0x10) ||| 0x20), PinEv.delayUs 100,
            PinEv.readDio false,
            PinEv.tris ((((t.TRISA &&& 0xDF) ||| 0x10) ||| 0x20) &&& 0xEF),
            PinEv.port (((t.PORTA &&& 0xDF) &&& 0xEF) &&& 0xEF),
            PinEv.delayUs 100,
            PinEv.tris (((((t.TRISA &&& 0xDF) ||| 0x10) ||| 0x20) &&& 0xEF) &&& 0xDF),
            PinEv.port ((((t.PORTA &&& 0xDF) &&& 0xEF) &&& 0xEF) &&& 0xDF), PinEv.delayUs 100])
    ∧ (tm1637ByteWrite env b s).2.TRISA.testBit tm1637clkTrisBit = false
    ∧ (tm1637ByteWrite env b s).2.TRISA.testBit tm1637dioTrisBit = env s.reads
    ∧ ((tm1637ByteWrite env b s).2.TRISA.testBit tm1637dioTrisBit = false
        ↔ env s.reads = false) := by
  obtain ⟨_, _, _, _, hr⟩ := byteWriteData_pins b (logCall (BusOp.write b) s)
  rw [logCall_reads, ← ht] at hr
  obtain ⟨q1, q2, q3, q4⟩ := byteWriteAck_sequence env t
  rw [hr] at q1 q2 q4
  have hw : (tm1637ByteWrite env b s).2 = (byteWriteAck env t).2 := by
    rw [ht]
    rfl
  rw [hw]
  exact ⟨hr, q1, q2, q3, q4, by rw [q4]⟩

/-- Witness of C26: the command byte `0x40` from the initial state of the counter
build with the acknowledgment asserted (line sampled low): the function returns
with the data line driven low. -/
theorem C26_acknowledgment_cycle_witness :
    (tm1637ByteWrite (fun _ => false) 0x40 Counter.init).2.TRISA.testBit tm1637dioTrisBit
      = false :=
  (C26_acknowledgment_cycle (fun _ => false) 0x40 Counter.init _ rfl).2.2.2.2.1

/-! ### The counter demo -/

theorem nextCount_eq (c : Nat) (h : c ≤ 9999) : Counter.nextCount c = (c + 1) % 10000 := by
  unfold Counter.nextCount
  split <;> omega

theorem bytesWritten_append (l1 l2 : List BusOp) :
    bytesWritten (l1 ++ l2) = bytesWritten l1 ++ bytesWritten l2 := by
  induction l1 with
  | nil => rfl
  | cons op rest ih =>
    cases op with
    | start => exact ih
    | write b => exact congrArg (List.cons b) ih
    | stop => exact ih

theorem counter_getDigits_calls (v : Nat) (s : State) :
    (Counter.getDigits v s).2.calls = s.calls := rfl

theorem counter_getDigits_ret (v : Nat) (s : State) : (Counter.getDigits v s).1 = 1 := rfl

theorem counter_mainStep_eq (env : Nat → Bool) (acc : Nat × State) :
    Counter.mainStep env acc
      = (Counter.nextCount acc.1,
          Counter.tm1637UpdateDisplay env
            (delayUs 1000000 (Counter.getDigits (Counter.nextCount acc.1) acc.2).2)) := by
  simp only [Counter.mainStep, counter_getDigits_ret]
  rfl

theorem counter_update_count (env : Nat → Bool) (t : State) :
    (bytesWritten (Counter.tm1637UpdateDisplay env t).calls).length
      = (bytesWritten t.calls).length + 7 := by
  rw [(counter_update_calls env t).1, counter_renderSegs_four, bytesWritten_append,
    bytesWritten_updateOps, List.length_append]
  rfl

theorem counter_update_data (env : Nat → Bool) (t : State) :
    (Counter.tm1637UpdateDisplay env t).tm1637Data = t.tm1637Data :=
  display_data t _ (counter_update_calls env t).2

theorem counter_mainRun_inv (env : Nat → Bool) (s : State) (hlen : s.tm1637Data.length = 4) :
    ∀ n, (Counter.mainRun env n s).1 = n % 10000
      ∧ (Counter.mainRun env n s).2.tm1637Data = digits4 (n % 10000)
      ∧ (bytesWritten (Counter.mainRun env n s).2.calls).length
          = (bytesWritten s.calls).length + 7 * (n + 1) := by
  intro n
  induction n with
  | zero =>
    have e0 : Counter.mainRun env 0 s
        = (0, Counter.tm1637UpdateDisplay env
            (Counter.getDigits 0 (delayUs 100000 (Counter.initialise s))).2) := rfl
    have hl : (delayUs 100000 (Counter.initialise s)).tm1637Data.length = 4 := hlen
    rw [e0]
    refine ⟨rfl, ?_, ?_⟩
    · show (Counter.tm1637UpdateDisplay env _).tm1637Data = _
      rw [counter_update_data, counter_getDigits_data _ _ hl]
    · show (bytesWritten (Counter.tm1637UpdateDisplay env _).calls).length = _
      rw [counter_update_count, counter_getDigits_calls]
      rfl
  | succ n ih =>
    obtain ⟨h1, h2, h3⟩ := ih
    have hl : (Counter.mainRun env n s).2.tm1637Data.length = 4 := by rw [h2]; rfl
    have hle : (Counter.mainRun env n s).1 ≤ 9999 := by omega
    have hstep : Counter.mainRun env (n + 1) s
        = Counter.mainStep env (Counter.mainRun env n s) := rfl
    have hnext : Counter.nextCount (Counter.mainRun env n s).1 = (n + 1) % 10000 := by
      rw [nextCount_eq _ hle, h1]
      omega
    rw [hstep, counter_mainStep_eq, hnext]
    refine ⟨rfl, ?_, ?_⟩
    · show (Counter.tm1637UpdateDisplay env _).tm1637Data = _
      rw [counter_update_data]
      show (Counter.getDigits ((n + 1) % 10000) (Counter.mainRun env n s).2).2.tm1637Data = _
      rw [counter_getDigits_data _ _ hl]
    · show (bytesWritten (Counter.tm1637UpdateDisplay env _).calls).length = _
      rw [counter_update_count]
      show (bytesWritten (Counter.getDigits ((n + 1) % 10000)
        (Counter.mainRun env n s).2).2.calls).length + 7 = _
      rw [counter_getDigits_calls, h3]
      omega

/-- C27: the counter demo never feeds `getDigits` an out-of-range value.  In `main`
of `PIC12F1840_TM1637.c`, run from a state with a four entry buffer, the value
passed to `getDigits` starts at 0, after `n` iterations of the loop is
`n mod 10000` (so always in 0..9999), and each iteration passes
`(previous + 1) mod 10000`; the buffer then holds exactly the decimal digits of the
count; `getDigits` returns 1, so every iteration ends with a display update (seven
more bytes written per iteration). -/
theorem C27_counter_demo_in_range (env : Nat → Bool) (s : State)
    (hlen : s.tm1637Data.length = 4) (n : Nat) :
    (Counter.mainRun env 0 s).1 = 0
    ∧ (Counter.mainRun env n s).1 = n % 10000
    ∧ (Counter.mainRun env n s).1 ≤ 9999
    ∧ Counter.nextCount (Counter.mainRun env n s).1 = ((Counter.mainRun env n s).1 + 1) % 10000
    ∧ (Counter.mainRun env (n + 1) s).1 = ((Counter.mainRun env n s).1 + 1) % 10000
    ∧ (Counter.mainRun env n s).2.tm1637Data
        = [n % 10000 / 1000, n % 10000 / 100 % 10, n % 10000 / 10 % 10, n % 10000 % 10]
    ∧ (Counter.getDigits (Counter.nextCount (Counter.mainRun env n s).1)
        (Counter.mainRun env n s).2).1 = 1
    ∧ (Counter.mainRun env (n + 1) s).2
        = Counter.tm1637UpdateDisplay env (delayUs 1000000
            (Counter.getDigits (((Counter.mainRun env n s).1 + 1) % 10000)
              (Counter.mainRun env n s).2).2)
    ∧ (bytesWritten (Counter.mainRun env n s).2.calls).length
        = (bytesWritten s.calls).length + 7 * (n + 1) := by
  obtain ⟨h1, h2, h3⟩ := counter_mainRun_inv env s hlen n
  obtain ⟨g1, _, _⟩ := counter_mainRun_inv env s hlen (n + 1)
  have hle : (Counter.mainRun env n s).1 ≤ 9999 := by omega
  refine ⟨rfl, h1, hle, nextCount_eq _ hle, ?_, ?_, rfl, ?_, h3⟩
  · rw [g1, h1]; omega
  · rw [h2]
    simp only [digits4, List.cons.injEq, and_true]
    omega
  · have hstep : Counter.mainRun env (n + 1) s
        = Counter.mainStep env (Counter.mainRun env n s) := rfl
    rw [hstep, counter_mainStep_eq, nextCount_eq _ hle]

/-- Witness of C27: from the reset state, after 10000 iterations the count has
wrapped to 0. -/
theorem C27_counter_demo_in_range_witness :
    (Counter.mainRun (fun _ => false) 10000 {}).1 = 10000 % 10000 :=
  (C27_counter_demo_in_range (fun _ => false) {} (by decide) 10000).2.1

/-! ### The ADC sampling loop -/

end TM1637
